import Mathlib

/-!
# pgtype value assignment (`convert.go`)

A shallow embedding of `int64AssignTo` and `float64AssignTo` from `convert.go`.

* Go types are the terms of `GoType`; `reflect.Kind` is `Kind`.
* A Go variable lives in a `Heap` cell; a pointer is `nil` or the address of a cell.
* An `interface{}` argument is an `Iface`: the nil interface, or a dynamic type with a value.
* A call returns an `Outcome`: the returned `error` (or `nil`) together with the heap after
  the call, or a run-time panic.
* `int` and `uint` are 32 or 64 bits wide depending on the platform (`Arch`).
* The two functions recurse on a destination that is a pointer to a pointer; the
  embedding recurses on a budget, set to the number of pointer levels of the destination,
  and `assignTo_ne_outOfFuel` shows that the budget always suffices.
* `float64` and `float32` values are bit patterns, with the conversions `int64(f)`,
  `float64(i)` and `float32(f)` computed on them.
-/

namespace Pgtype

/-! ## Platform and integer constants -/

/-- Platform word size: the width of Go's `int` and `uint`. -/
inductive Arch
  | bits32
  | bits64
  deriving DecidableEq, Repr

/-- Number of bits of `int` and `uint` on the platform. -/
def Arch.intSize : Arch → Nat
  | .bits32 => 32
  | .bits64 => 64

/-- Go `const maxUint = ^uint(0)`. -/
def maxUint (arch : Arch) : Int := 2 ^ arch.intSize - 1

/-- Go `const maxInt = int(maxUint >> 1)`. -/
def maxInt (arch : Arch) : Int := maxUint arch / 2

/-- Go `const minInt = -maxInt - 1`. -/
def minInt (arch : Arch) : Int := -maxInt arch - 1

/-- Go `math.MinInt8`. -/
def MinInt8 : Int := -128
/-- Go `math.MaxInt8`. -/
def MaxInt8 : Int := 127
/-- Go `math.MinInt16`. -/
def MinInt16 : Int := -32768
/-- Go `math.MaxInt16`. -/
def MaxInt16 : Int := 32767
/-- Go `math.MinInt32`. -/
def MinInt32 : Int := -2147483648
/-- Go `math.MaxInt32`. -/
def MaxInt32 : Int := 2147483647
/-- Go `math.MinInt64`. -/
def MinInt64 : Int := -9223372036854775808
/-- Go `math.MaxInt64`. -/
def MaxInt64 : Int := 9223372036854775807
/-- Go `math.MaxUint8`. -/
def MaxUint8 : Int := 255
/-- Go `math.MaxUint16`. -/
def MaxUint16 : Int := 65535
/-- Go `math.MaxUint32`. -/
def MaxUint32 : Int := 4294967295

/-- The values of Go's `int64`. -/
def IsInt64 (x : Int) : Prop := MinInt64 ≤ x ∧ x ≤ MaxInt64

instance (x : Int) : Decidable (IsInt64 x) := by
  unfold IsInt64
  exact inferInstance

/-- Conversion of an integer to the signed type of `w` bits: the low `w` bits, read in
two's complement (`int8(x)`, `int16(x)`, ...). -/
def wrapSigned (w : Nat) (x : Int) : Int := (x + 2 ^ (w - 1)) % 2 ^ w - 2 ^ (w - 1)

/-- Conversion of an integer to the unsigned type of `w` bits: the low `w` bits
(`uint8(x)`, `uint16(x)`, ...). -/
def wrapUnsigned (w : Nat) (x : Int) : Int := x % 2 ^ w

/-! ## Types, values, memory -/

/-- Go's `reflect.Kind`. -/
inductive Kind
  | Invalid | Bool
  | Int | Int8 | Int16 | Int32 | Int64
  | Uint | Uint8 | Uint16 | Uint32 | Uint64 | Uintptr
  | Float32 | Float64 | Complex64 | Complex128
  | Array | Chan | Func | Interface | Map | Ptr | Slice | String | Struct | UnsafePointer
  deriving DecidableEq, Repr

/-- Go types. The predeclared types are constants; `named n u` is a defined type
`type n u` whose underlying type is `u`; the remaining constructors are type literals
(`func`, `interface` and `struct` literals are kept as their printed form, in which a
field or method name that is not exported is written with the package that declares it:
two such literals are identical types exactly when these forms are equal). -/
inductive GoType
  | bool | int | int8 | int16 | int32 | int64
  | uint | uint8 | uint16 | uint32 | uint64 | uintptr
  | float32 | float64 | complex64 | complex128 | string
  | unsafePointer
  | named (name : String) (under : GoType)
  | ptr (elem : GoType)
  | slice (elem : GoType)
  | array (len : Nat) (elem : GoType)
  | chan (elem : GoType)
  | map (key : GoType) (elem : GoType)
  | func (descr : String)
  | interface (descr : String)
  | struct (descr : String)
  deriving DecidableEq, Repr

/-- Go `reflect.Type.Kind`: the kind of a type is the kind of its underlying type. -/
def GoType.Kind : GoType → Kind
  | .bool => .Bool
  | .int => .Int
  | .int8 => .Int8
  | .int16 => .Int16
  | .int32 => .Int32
  | .int64 => .Int64
  | .uint => .Uint
  | .uint8 => .Uint8
  | .uint16 => .Uint16
  | .uint32 => .Uint32
  | .uint64 => .Uint64
  | .uintptr => .Uintptr
  | .float32 => .Float32
  | .float64 => .Float64
  | .complex64 => .Complex64
  | .complex128 => .Complex128
  | .string => .String
  | .unsafePointer => .UnsafePointer
  | .named _ u => u.Kind
  | .ptr _ => .Ptr
  | .slice _ => .Slice
  | .array _ _ => .Array
  | .chan _ => .Chan
  | .map _ _ => .Map
  | .func _ => .Func
  | .interface _ => .Interface
  | .struct _ => .Struct

/-- Go `reflect.Type.Elem`: the element type of a pointer, slice, array, channel or map
type; `none` where Go panics (any other kind). -/
def GoType.Elem : GoType → Option GoType
  | .named _ u => u.Elem
  | .ptr e => some e
  | .slice e => some e
  | .array _ e => some e
  | .chan e => some e
  | .map _ e => some e
  | _ => none

/-- Number of pointer levels of a type: `**int` has two, `int` has none. -/
def GoType.ptrDepth : GoType → Nat
  | .named _ u => u.ptrDepth
  | .ptr e => e.ptrDepth + 1
  | _ => 0

/-- An IEEE 754 binary64 value, as its 64-bit pattern. -/
structure Float64 where
  bits : Nat
  deriving DecidableEq, Repr

/-- An IEEE 754 binary32 value, as its 32-bit pattern. -/
structure Float32 where
  bits : Nat
  deriving DecidableEq, Repr

/-- Contents of a Go variable. Integers of every width and signedness are kept as their
numeric value; a pointer is `nil` (`none`) or the address of a heap cell; `agg` stands
for the memory of any other value (struct, slice header, map, ...), uninterpreted; a
variable of interface type holds nothing (`nilIface`) or a value with its dynamic type
(`boxed`). -/
inductive Value
  | int (n : Int)
  | float32 (f : Float32)
  | float64 (f : Float64)
  | bool (b : Bool)
  | string (s : String)
  | ptr (addr : Option Nat)
  | agg (words : List Nat)
  | nilIface
  | boxed (typ : GoType) (val : Value)
  deriving DecidableEq, Repr

/-- The zero value of a type, as produced by `reflect.New` and `reflect.Zero`. -/
def GoType.zero : GoType → Value
  | .bool => .bool false
  | .int | .int8 | .int16 | .int32 | .int64 => .int 0
  | .uint | .uint8 | .uint16 | .uint32 | .uint64 | .uintptr => .int 0
  | .float32 => .float32 ⟨0⟩
  | .float64 => .float64 ⟨0⟩
  | .string => .string ""
  | .named _ u => u.zero
  | .ptr _ => .ptr none
  | .unsafePointer => .ptr none
  | .interface _ => .nilIface
  | _ => .agg []

/-- The memory: cell `a` is the variable at address `a`. -/
structure Heap where
  cells : List Value
  deriving DecidableEq, Repr

/-- Contents of the variable at address `a`, if `a` is an address of the heap. -/
def Heap.read (h : Heap) (a : Nat) : Option Value := h.cells[a]?

/-- Overwrite the variable at address `a`; `none` if `a` is not an address of the heap. -/
def Heap.store (h : Heap) (a : Nat) (x : Value) : Option Heap :=
  if a < h.cells.length then some ⟨h.cells.set a x⟩ else none

/-- Allocate a fresh variable holding `x`: its address and the extended heap. -/
def Heap.alloc (h : Heap) (x : Value) : Nat × Heap := (h.cells.length, ⟨h.cells ++ [x]⟩)

/-- A value of type `interface{}`: the nil interface, or a dynamic type and a value. -/
inductive Iface
  | nil
  | mk (typ : GoType) (val : Value)
  deriving DecidableEq, Repr

/-- Go `reflect.ValueOf(x).Kind()`; the nil interface gives `Invalid`. -/
def Iface.Kind : Iface → Kind
  | .nil => .Invalid
  | .mk t _ => t.Kind

/-- Number of pointer levels of the dynamic type. -/
def Iface.ptrDepth : Iface → Nat
  | .nil => 0
  | .mk t _ => t.ptrDepth

/-- Modelled from the spec: the type `Status` and its constants `Undefined`, `Null` and
`Present`, which `convert.go` uses and does not declare. A three-valued presence tag. -/
inductive Status
  | Undefined
  | Null
  | Present
  deriving DecidableEq, Repr

/-! ## Floating point -/

/-- Position of the most significant set bit of `n` (0 for `n ≤ 1`), for `n < 2 ^ fuel`. -/
def topBit : Nat → Nat → Nat
  | 0, _ => 0
  | fuel + 1, n => if 2 ≤ n then topBit fuel (n / 2) + 1 else 0

/-- Division of `m` by `2 ^ s`, rounded to the nearest integer, ties to even: `q` is the
quotient, `r` the remainder, `unit` is `2 ^ s`. -/
def roundShift (m s : Nat) : Nat :=
  let q := m >>> s
  let r := m - (q <<< s)
  let unit := 1 <<< s
  if 2 * r > unit ∨ (2 * r = unit ∧ q % 2 = 1) then q + 1 else q

/-- The sign bit. -/
def Float64.sign (f : Float64) : Nat := f.bits / 2 ^ 63 % 2

/-- The biased exponent field (11 bits). -/
def Float64.expField (f : Float64) : Nat := f.bits / 2 ^ 52 % 2 ^ 11

/-- The fraction field (52 bits). -/
def Float64.frac (f : Float64) : Nat := f.bits % 2 ^ 52

/-- Not a number. -/
def Float64.isNaN (f : Float64) : Bool := f.expField = 2047 ∧ f.frac ≠ 0

/-- Plus or minus infinity. -/
def Float64.isInf (f : Float64) : Bool := f.expField = 2047 ∧ f.frac = 0

/-- Plus or minus zero. -/
def Float64.isZero (f : Float64) : Bool := f.expField = 0 ∧ f.frac = 0

/-- Significand of a finite value: the value is `± mant * 2 ^ exp2`. -/
def Float64.mant (f : Float64) : Nat :=
  if f.expField = 0 then f.frac else 2 ^ 52 + f.frac

/-- Binary exponent of a finite value: the value is `± mant * 2 ^ exp2`. -/
def Float64.exp2 (f : Float64) : Int :=
  if f.expField = 0 then -1074 else (f.expField : Int) - 1075

/-- Go `x == y` on `float64`: a NaN equals nothing, the two zeros are equal. -/
def Float64.eq (x y : Float64) : Bool :=
  !x.isNaN && !y.isNaN && (x.bits = y.bits || (x.isZero && y.isZero))

/-- Go `int64(f)`: the value truncated toward zero (`m <<< k` is `m * 2 ^ k`, `m >>> k` is
`m / 2 ^ k`). For a value with no `int64`
truncation (NaN, an infinity, a magnitude of `2^63` or more) the Go specification leaves
the result to the implementation; this is the amd64 result, `math.MinInt64`. -/
def Float64.toInt64 (f : Float64) : Int :=
  if f.expField = 2047 then MinInt64
  else
    let mag : Nat :=
      if 0 ≤ f.exp2 then f.mant <<< f.exp2.toNat else f.mant >>> (-f.exp2).toNat
    let t : Int := if f.sign = 1 then -(mag : Int) else mag
    if MinInt64 ≤ t ∧ t ≤ MaxInt64 then t else MinInt64

/-- Go `float64(i)` for an `int64` value: the nearest `float64`, ties to even. -/
def Float64.ofInt64 (i : Int) : Float64 :=
  if i = 0 then ⟨0⟩
  else
    let n := i.natAbs
    let k := topBit 64 n
    let sig := if k ≤ 52 then n * 2 ^ (52 - k) else roundShift n (k - 52)
    ⟨(if i < 0 then 2 ^ 63 else 0) + (1022 + k) * 2 ^ 52 + sig⟩

/-- Go `float32(f)`: the nearest `float32`, ties to even; a magnitude beyond the
`float32` range becomes an infinity, a NaN stays a NaN. There is no failure case. -/
def Float64.toFloat32 (f : Float64) : Float32 :=
  let s := f.sign * 2 ^ 31
  if f.expField = 2047 then
    if f.frac = 0 then ⟨s + 255 * 2 ^ 23⟩
    else ⟨s + 255 * 2 ^ 23 + 2 ^ 22 + f.frac / 2 ^ 29 % 2 ^ 22⟩
  else if f.mant = 0 then ⟨s⟩
  else
    let top : Int := (topBit 64 f.mant : Int) + f.exp2
    let quantum : Int := max (top - 23) (-149)
    let sig :=
      if quantum ≤ f.exp2 then f.mant <<< (f.exp2 - quantum).toNat
      else roundShift f.mant (quantum - f.exp2).toNat
    let body := (max (top + 126) 0).toNat * 2 ^ 23 + sig
    if body ≥ 255 * 2 ^ 23 then ⟨s + 255 * 2 ^ 23⟩ else ⟨s + body⟩

/-! ## Errors -/

/-- An operand of `fmt.Errorf`. -/
inductive FmtArg
  | int64 (n : Int)
  | float64 (f : Float64)
  | status (s : Status)
  | iface (d : Iface)
  deriving DecidableEq, Repr

/-- An `error` made by `fmt.Errorf(format, args...)`. -/
structure GoError where
  format : String
  args : List FmtArg
  deriving DecidableEq, Repr

/-- Go `fmt.Errorf`. -/
def Errorf (format : String) (args : List FmtArg) : GoError := ⟨format, args⟩

/-- Result of a call: it returned `err` (`none` for a nil error) leaving the memory
`heap`, or it panicked (a nil or invalid pointer was dereferenced), or the recursion
budget of the embedding was exhausted. -/
inductive Outcome
  | returned (err : Option GoError) (heap : Heap)
  | panicked
  | outOfFuel
  deriving DecidableEq, Repr

/-! ## Pointers and reflection -/

/-- The assignment `*v = x` through the pointer value `v`; dereferencing a nil pointer
panics (as does, in this embedding, an address outside the heap). -/
def assignDeref (v : Value) (x : Value) (h : Heap) : Outcome :=
  match v with
  | .ptr (some a) =>
    match h.store a x with
    | some h1 => .returned none h1
    | none => .panicked
  | _ => .panicked

/-- What the `reflect.Value` returned by `Elem` designates: the variable a pointer
points to (its type and address), or nothing (the zero `reflect.Value`). -/
inductive Place
  | invalid
  | var (typ : GoType) (addr : Nat)
  deriving DecidableEq, Repr

/-- Go `reflect.ValueOf(x).Elem()` for `x` of pointer kind: the pointed-to variable, or
the zero `reflect.Value` when the pointer is nil. -/
def Iface.Elem : Iface → Place
  | .mk t (.ptr (some a)) =>
    match t.Elem with
    | some e => .var e a
    | none => .invalid
  | _ => .invalid

/-- Go `reflect.Value.Kind`; the zero `reflect.Value` has kind `Invalid`. -/
def Place.Kind : Place → Kind
  | .invalid => .Invalid
  | .var t _ => t.Kind

/-- Width in bits (`typ.size * 8`) of the integer kinds; 0 for the other kinds. -/
def Kind.bitSize (arch : Arch) : Kind → Nat
  | .Int | .Uint | .Uintptr => arch.intSize
  | .Int8 | .Uint8 => 8
  | .Int16 | .Uint16 => 16
  | .Int32 | .Uint32 => 32
  | .Int64 | .Uint64 => 64
  | _ => 0

/-- Go `reflect.Value.OverflowInt` on a value of signed integer kind `k`:
`trunc := (x << (64 - bitSize)) >> (64 - bitSize); return x != trunc`, in `int64`. -/
def OverflowInt (arch : Arch) (k : Kind) (x : Int) : Bool :=
  let bitSize := k.bitSize arch
  let trunc := wrapSigned 64 (x * 2 ^ (64 - bitSize)) / 2 ^ (64 - bitSize)
  decide (x ≠ trunc)

/-- Go `reflect.Value.OverflowUint` on a value of unsigned integer kind `k`:
`trunc := (x << (64 - bitSize)) >> (64 - bitSize); return x != trunc`, in `uint64`. -/
def OverflowUint (arch : Arch) (k : Kind) (x : Int) : Bool :=
  let bitSize := k.bitSize arch
  let trunc := wrapUnsigned 64 (x * 2 ^ (64 - bitSize)) / 2 ^ (64 - bitSize)
  decide (x ≠ trunc)

/-- Go `reflect.Value.SetInt`: stores `x` converted to the signed integer kind `k`. -/
def SetInt (arch : Arch) (k : Kind) (x : Int) : Value := .int (wrapSigned (k.bitSize arch) x)

/-- Go `reflect.Value.SetUint`: stores `x` converted to the unsigned integer kind `k`. -/
def SetUint (arch : Arch) (k : Kind) (x : Int) : Value := .int (wrapUnsigned (k.bitSize arch) x)

/-- Store `x` in the variable at `a` and return a nil error. -/
def setAndReturn (h : Heap) (a : Nat) (x : Value) : Outcome :=
  match h.store a x with
  | some h1 => .returned none h1
  | none => .panicked

/-! ## `int64AssignTo` -/

/-- Go `int64AssignTo`, with a recursion budget: each recursive call (a destination that
is a pointer to a pointer) uses one unit. -/
def int64AssignToAux (arch : Arch) : Nat → Int → Status → Iface → Heap → Outcome
  | 0, _, _, _, _ => .outOfFuel
  | fuel + 1, srcVal, srcStatus, dst, h =>
    if srcStatus = .Present then
      match dst with
      | .mk (.ptr .int) v =>
        if srcVal < minInt arch then
          .returned (some (Errorf "%d is less than minimum value for int" [.int64 srcVal])) h
        else if srcVal > maxInt arch then
          .returned (some (Errorf "%d is greater than maximum value for int" [.int64 srcVal])) h
        else assignDeref v (.int (wrapSigned arch.intSize srcVal)) h
      | .mk (.ptr .int8) v =>
        if srcVal < MinInt8 then
          .returned (some (Errorf "%d is less than minimum value for int8" [.int64 srcVal])) h
        else if srcVal > MaxInt8 then
          .returned (some (Errorf "%d is greater than maximum value for int8" [.int64 srcVal])) h
        else assignDeref v (.int (wrapSigned 8 srcVal)) h
      | .mk (.ptr .int16) v =>
        if srcVal < MinInt16 then
          .returned (some (Errorf "%d is less than minimum value for int16" [.int64 srcVal])) h
        else if srcVal > MaxInt16 then
          .returned (some (Errorf "%d is greater than maximum value for int16" [.int64 srcVal])) h
        else assignDeref v (.int (wrapSigned 16 srcVal)) h
      | .mk (.ptr .int32) v =>
        if srcVal < MinInt32 then
          .returned (some (Errorf "%d is less than minimum value for int32" [.int64 srcVal])) h
        else if srcVal > MaxInt32 then
          .returned (some (Errorf "%d is greater than maximum value for int32" [.int64 srcVal])) h
        else assignDeref v (.int (wrapSigned 32 srcVal)) h
      | .mk (.ptr .int64) v =>
        if srcVal < MinInt64 then
          .returned (some (Errorf "%d is less than minimum value for int64" [.int64 srcVal])) h
        else if srcVal > MaxInt64 then
          .returned (some (Errorf "%d is greater than maximum value for int64" [.int64 srcVal])) h
        else assignDeref v (.int (wrapSigned 64 srcVal)) h
      | .mk (.ptr .uint) v =>
        if srcVal < 0 then
          .returned (some (Errorf "%d is less than zero for uint" [.int64 srcVal])) h
        else if wrapUnsigned 64 srcVal > maxUint arch then
          .returned (some (Errorf "%d is greater than maximum value for uint" [.int64 srcVal])) h
        else assignDeref v (.int (wrapUnsigned arch.intSize srcVal)) h
      | .mk (.ptr .uint8) v =>
        if srcVal < 0 then
          .returned (some (Errorf "%d is less than zero for uint8" [.int64 srcVal])) h
        else if srcVal > MaxUint8 then
          .returned (some (Errorf "%d is greater than maximum value for uint8" [.int64 srcVal])) h
        else assignDeref v (.int (wrapUnsigned 8 srcVal)) h
      | .mk (.ptr .uint16) v =>
        if srcVal < 0 then
          .returned (some (Errorf "%d is less than zero for uint32" [.int64 srcVal])) h
        else if srcVal > MaxUint16 then
          .returned (some (Errorf "%d is greater than maximum value for uint16" [.int64 srcVal])) h
        else assignDeref v (.int (wrapUnsigned 16 srcVal)) h
      | .mk (.ptr .uint32) v =>
        if srcVal < 0 then
          .returned (some (Errorf "%d is less than zero for uint32" [.int64 srcVal])) h
        else if srcVal > MaxUint32 then
          .returned (some (Errorf "%d is greater than maximum value for uint32" [.int64 srcVal])) h
        else assignDeref v (.int (wrapUnsigned 32 srcVal)) h
      | .mk (.ptr .uint64) v =>
        if srcVal < 0 then
          .returned (some (Errorf "%d is less than zero for uint64" [.int64 srcVal])) h
        else assignDeref v (.int (wrapUnsigned 64 srcVal)) h
      | _ =>
        let unsupported : Outcome :=
          .returned (some (Errorf "cannot assign %v into %T" [.int64 srcVal, .iface dst])) h
        if dst.Kind = .Ptr then
          match dst.Elem with
          | .var elT a =>
            match elT.Kind with
            | .Ptr =>
              match h.read a with
              | none => .panicked
              | some cur =>
                if cur = .ptr none then
                  match elT.Elem with
                  | none => .panicked
                  | some newT =>
                    let (b, h1) := h.alloc newT.zero
                    match h1.store a (.ptr (some b)) with
                    | none => .panicked
                    | some h2 =>
                      int64AssignToAux arch fuel srcVal srcStatus (.mk elT (.ptr (some b))) h2
                else int64AssignToAux arch fuel srcVal srcStatus (.mk elT cur) h
            | .Int | .Int8 | .Int16 | .Int32 | .Int64 =>
              if OverflowInt arch elT.Kind srcVal then
                .returned (some (Errorf "cannot put %d into %T" [.int64 srcVal, .iface dst])) h
              else setAndReturn h a (SetInt arch elT.Kind srcVal)
            | .Uint | .Uint8 | .Uint16 | .Uint32 | .Uint64 =>
              if srcVal < 0 then
                .returned (some (Errorf "%d is less than zero for %T" [.int64 srcVal, .iface dst])) h
              else if OverflowUint arch elT.Kind (wrapUnsigned 64 srcVal) then
                .returned (some (Errorf "cannot put %d into %T" [.int64 srcVal, .iface dst])) h
              else setAndReturn h a (SetUint arch elT.Kind (wrapUnsigned 64 srcVal))
            | _ => unsupported
          | .invalid => unsupported
        else unsupported
    else
      let notAssignable : Outcome :=
        .returned (some (Errorf "cannot assign %v %v into %T"
          [.int64 srcVal, .status srcStatus, .iface dst])) h
      if dst.Kind = .Ptr then
        match dst.Elem with
        | .var elT a =>
          if elT.Kind = .Ptr then setAndReturn h a elT.zero
          else notAssignable
        | .invalid => notAssignable
      else notAssignable

/-- Go `int64AssignTo`. The budget is the number of pointer levels of the destination,
which bounds the number of recursive calls. -/
def int64AssignTo (arch : Arch) (srcVal : Int) (srcStatus : Status) (dst : Iface) (h : Heap) :
    Outcome :=
  int64AssignToAux arch (dst.ptrDepth + 1) srcVal srcStatus dst h

/-! ## `float64AssignTo` -/

/-- Go `float64AssignTo`, with a recursion budget: each recursive call (a destination that
is a pointer to a pointer) uses one unit. -/
def float64AssignToAux (arch : Arch) : Nat → Float64 → Status → Iface → Heap → Outcome
  | 0, _, _, _, _ => .outOfFuel
  | fuel + 1, srcVal, srcStatus, dst, h =>
    if srcStatus = .Present then
      match dst with
      | .mk (.ptr .float32) v => assignDeref v (.float32 srcVal.toFloat32) h
      | .mk (.ptr .float64) v => assignDeref v (.float64 srcVal) h
      | _ =>
        let unsupported : Outcome :=
          .returned (some (Errorf "cannot assign %v into %T" [.float64 srcVal, .iface dst])) h
        if dst.Kind = .Ptr then
          match dst.Elem with
          | .var elT a =>
            match elT.Kind with
            | .Ptr =>
              match h.read a with
              | none => .panicked
              | some cur =>
                if cur = .ptr none then
                  match elT.Elem with
                  | none => .panicked
                  | some newT =>
                    let (b, h1) := h.alloc newT.zero
                    match h1.store a (.ptr (some b)) with
                    | none => .panicked
                    | some h2 =>
                      float64AssignToAux arch fuel srcVal srcStatus (.mk elT (.ptr (some b))) h2
                else float64AssignToAux arch fuel srcVal srcStatus (.mk elT cur) h
            | .Int | .Int8 | .Int16 | .Int32 | .Int64
            | .Uint | .Uint8 | .Uint16 | .Uint32 | .Uint64 =>
              let i64 := srcVal.toInt64
              if (Float64.ofInt64 i64).eq srcVal then int64AssignTo arch i64 srcStatus dst h
              else unsupported
            | _ => unsupported
          | .invalid => unsupported
        else unsupported
    else
      let notAssignable : Outcome :=
        .returned (some (Errorf "cannot assign %v %v into %T"
          [.float64 srcVal, .status srcStatus, .iface dst])) h
      if dst.Kind = .Ptr then
        match dst.Elem with
        | .var elT a =>
          if elT.Kind = .Ptr then setAndReturn h a elT.zero
          else notAssignable
        | .invalid => notAssignable
      else notAssignable

/-- Go `float64AssignTo`. The budget is the number of pointer levels of the destination,
which bounds the number of recursive calls. -/
def float64AssignTo (arch : Arch) (srcVal : Float64) (srcStatus : Status) (dst : Iface)
    (h : Heap) : Outcome :=
  float64AssignToAux arch (dst.ptrDepth + 1) srcVal srcStatus dst h

/-! ## Integer kinds and their ranges -/

/-- The signed integer kinds. -/
def isSignedKind : Kind → Bool
  | .Int | .Int8 | .Int16 | .Int32 | .Int64 => true
  | _ => false

/-- The unsigned integer kinds `uint`, `uint8`, `uint16`, `uint32`, `uint64`. -/
def isUnsignedKind : Kind → Bool
  | .Uint | .Uint8 | .Uint16 | .Uint32 | .Uint64 => true
  | _ => false

/-- The ten integer kinds. -/
def isIntegerKind (k : Kind) : Bool := isSignedKind k || isUnsignedKind k

/-- Least value representable in an integer kind: `-2^(w-1)` for a signed kind of `w`
bits, `0` for an unsigned one. -/
def minValue (arch : Arch) (k : Kind) : Int :=
  if isSignedKind k then -(2 ^ (k.bitSize arch - 1)) else 0

/-- Greatest value representable in an integer kind: `2^(w-1) - 1` for a signed kind of
`w` bits, `2^w - 1` for an unsigned one. -/
def maxValue (arch : Arch) (k : Kind) : Int :=
  if isSignedKind k then 2 ^ (k.bitSize arch - 1) - 1 else 2 ^ (k.bitSize arch) - 1

/-- The ten predeclared integer types `int`, `int8`, ..., `uint64`. -/
def GoType.IsBuiltinInt : GoType → Bool
  | .int | .int8 | .int16 | .int32 | .int64 => true
  | .uint | .uint8 | .uint16 | .uint32 | .uint64 => true
  | _ => false

/-! ## The `default` case of the type switch -/

/-- The type switch of `int64AssignTo` has a case for this destination: its dynamic type
is `*K` for a predeclared integer type `K`. -/
def Iface.hasIntCase : Iface → Bool
  | .mk (.ptr K) _ => K.IsBuiltinInt
  | _ => false

/-- The `default` case of the type switch of `int64AssignTo` (with `Present`), on its
own; `int64AssignToAux_default` shows that it is what the function runs there. -/
def int64Default (arch : Arch) (fuel : Nat) (srcVal : Int) (dst : Iface) (h : Heap) : Outcome :=
  let unsupported : Outcome :=
    .returned (some (Errorf "cannot assign %v into %T" [.int64 srcVal, .iface dst])) h
  if dst.Kind = .Ptr then
    match dst.Elem with
    | .var elT a =>
      match elT.Kind with
      | .Ptr =>
        match h.read a with
        | none => .panicked
        | some cur =>
          if cur = .ptr none then
            match elT.Elem with
            | none => .panicked
            | some newT =>
              let (b, h1) := h.alloc newT.zero
              match h1.store a (.ptr (some b)) with
              | none => .panicked
              | some h2 =>
                int64AssignToAux arch fuel srcVal .Present (.mk elT (.ptr (some b))) h2
          else int64AssignToAux arch fuel srcVal .Present (.mk elT cur) h
      | .Int | .Int8 | .Int16 | .Int32 | .Int64 =>
        if OverflowInt arch elT.Kind srcVal then
          .returned (some (Errorf "cannot put %d into %T" [.int64 srcVal, .iface dst])) h
        else setAndReturn h a (SetInt arch elT.Kind srcVal)
      | .Uint | .Uint8 | .Uint16 | .Uint32 | .Uint64 =>
        if srcVal < 0 then
          .returned (some (Errorf "%d is less than zero for %T" [.int64 srcVal, .iface dst])) h
        else if OverflowUint arch elT.Kind (wrapUnsigned 64 srcVal) then
          .returned (some (Errorf "cannot put %d into %T" [.int64 srcVal, .iface dst])) h
        else setAndReturn h a (SetUint arch elT.Kind (wrapUnsigned 64 srcVal))
      | _ => unsupported
    | .invalid => unsupported
  else unsupported

/-- The type switch of `float64AssignTo` has a case for this destination: its dynamic
type is `*float32` or `*float64`. -/
def Iface.hasFloatCase : Iface → Bool
  | .mk (.ptr .float32) _ => true
  | .mk (.ptr .float64) _ => true
  | _ => false

/-- The `default` case of the type switch of `float64AssignTo` (with `Present`), on its
own; `float64AssignToAux_default` shows that it is what the function runs there. -/
def float64Default (arch : Arch) (fuel : Nat) (srcVal : Float64) (dst : Iface) (h : Heap) :
    Outcome :=
  let unsupported : Outcome :=
    .returned (some (Errorf "cannot assign %v into %T" [.float64 srcVal, .iface dst])) h
  if dst.Kind = .Ptr then
    match dst.Elem with
    | .var elT a =>
      match elT.Kind with
      | .Ptr =>
        match h.read a with
        | none => .panicked
        | some cur =>
          if cur = .ptr none then
            match elT.Elem with
            | none => .panicked
            | some newT =>
              let (b, h1) := h.alloc newT.zero
              match h1.store a (.ptr (some b)) with
              | none => .panicked
              | some h2 =>
                float64AssignToAux arch fuel srcVal .Present (.mk elT (.ptr (some b))) h2
          else float64AssignToAux arch fuel srcVal .Present (.mk elT cur) h
      | .Int | .Int8 | .Int16 | .Int32 | .Int64
      | .Uint | .Uint8 | .Uint16 | .Uint32 | .Uint64 =>
        let i64 := srcVal.toInt64
        if (Float64.ofInt64 i64).eq srcVal then int64AssignTo arch i64 .Present dst h
        else unsupported
      | _ => unsupported
    | .invalid => unsupported
  else unsupported

/-- The memory after a zero value of type `T` has been allocated (at the first free
address, `h.cells.length`) and the pointer variable at `a` has been set to point to it. -/
def Heap.allocInto (h : Heap) (a : Nat) (T : GoType) : Heap :=
  ⟨(h.cells ++ [T.zero]).set a (.ptr (some h.cells.length))⟩

/-- Kind of the variable a destination points to, read off its dynamic type: the kind
of the element type for a destination of pointer kind, `Invalid` for anything else. -/
def Iface.pointeeKind : Iface → Pgtype.Kind
  | .nil => .Invalid
  | .mk t _ =>
    if t.Kind = .Ptr then
      match t.Elem with
      | some e => e.Kind
      | none => .Invalid
    else .Invalid

/-- The destination is a reference to a reference: a non-nil pointer to a variable of
the heap, and that variable is itself of pointer kind. -/
def Iface.isRefToRef (h : Heap) : Iface → Bool
  | .mk t (.ptr (some a)) => (Iface.mk t (.ptr (some a))).pointeeKind = .Ptr ∧ a < h.cells.length
  | _ => false

/-- A pointer destination that is not nil designates a variable of the heap (Go has no
dangling pointers); any other destination qualifies. -/
def Iface.live (h : Heap) : Iface → Bool
  | .mk _ (.ptr (some a)) => a < h.cells.length
  | _ => true

/-- The memory with the variable the destination points to set to the nil pointer. -/
def Heap.clearInner (h : Heap) : Iface → Heap
  | .mk _ (.ptr (some a)) => ⟨h.cells.set a (.ptr none)⟩
  | _ => h

/-- The statements after the `if srcStatus == Present` block, which `int64AssignTo` and
`float64AssignTo` share word for word, on their own: nil out the pointer a pointer
destination points to, or return the error `na`. `int64AssignTo_notPresent` and
`float64AssignTo_notPresent` show that it is what the functions run there. -/
def clearOrFail (na : GoError) (dst : Iface) (h : Heap) : Outcome :=
  if dst.Kind = .Ptr then
    match dst.Elem with
    | .var elT a =>
      if elT.Kind = .Ptr then setAndReturn h a elT.zero
      else .returned (some na) h
    | .invalid => .returned (some na) h
  else .returned (some na) h

/-! ## Error messages -/

/-- Go `reflect.Type.String`, what `%T` prints: the name of a predeclared or defined
type, or the type literal. -/
def GoType.typeString : GoType → String
  | .bool => "bool"
  | .int => "int"
  | .int8 => "int8"
  | .int16 => "int16"
  | .int32 => "int32"
  | .int64 => "int64"
  | .uint => "uint"
  | .uint8 => "uint8"
  | .uint16 => "uint16"
  | .uint32 => "uint32"
  | .uint64 => "uint64"
  | .uintptr => "uintptr"
  | .float32 => "float32"
  | .float64 => "float64"
  | .complex64 => "complex64"
  | .complex128 => "complex128"
  | .string => "string"
  | .unsafePointer => "unsafe.Pointer"
  | .named n _ => n
  | .ptr e => "*" ++ e.typeString
  | .slice e => "[]" ++ e.typeString
  | .array n e => "[" ++ toString n ++ "]" ++ e.typeString
  | .chan e => "chan " ++ e.typeString
  | .map k e => "map[" ++ k.typeString ++ "]" ++ e.typeString
  | .func d => d
  | .interface d => d
  | .struct d => d

/-- The operand renderings of `fmt` that this development leaves open: `%v` of a
`float64`, `%v` of a `Status` (declared outside `convert.go`), and `%v` of a pointer. -/
structure Printer where
  float64 : Float64 → String
  status : Status → String
  pointer : Iface → String

/-- Rendering of one operand under a verb, for the verbs `convert.go` uses: `%T` prints
the dynamic type, `%d` and `%v` print an `int64` in decimal. -/
def formatArg (pr : Printer) (verb : Char) (arg : FmtArg) : String :=
  if verb = 'T' then
    match arg with
    | .int64 _ => "int64"
    | .float64 _ => "float64"
    | .status _ => "pgtype.Status"
    | .iface .nil => "<nil>"
    | .iface (.mk t _) => t.typeString
  else
    match arg with
    | .int64 n => toString n
    | .float64 f => pr.float64 f
    | .status s => pr.status s
    | .iface d => pr.pointer d

/-- Go `fmt.Sprintf` on the characters of a format: each `%` with its verb consumes the
next operand. -/
def sprintfChars (pr : Printer) : List Char → List FmtArg → List Char
  | '%' :: verb :: rest, arg :: args =>
    (formatArg pr verb arg).toList ++ sprintfChars pr rest args
  | c :: rest, args => c :: sprintfChars pr rest args
  | [], _ => []

/-- Go `error.Error()` of an error made by `fmt.Errorf`: the formatted message. -/
def GoError.Error (pr : Printer) (e : GoError) : String :=
  String.mk (sprintfChars pr e.format.toList e.args)

/-- The message ends with the given text. -/
def endsWith (text : String) (msg : String) : Bool :=
  text.toList.reverse.isPrefixOf msg.toList.reverse

/-! ## Error kinds -/

/-- Modelled from the spec: the three error kinds of the error-handling design.
`convert.go` returns plain `fmt.Errorf` errors and declares no error types. -/
inductive ErrKind
  | RangeError
  | UnsupportedTargetError
  | NotAssignableError
  deriving DecidableEq, Repr

/-- The format string starts with the given text. -/
def startsWith (text : String) (format : String) : Bool :=
  text.toList.isPrefixOf format.toList

/-- Modelled from the spec: the error kind of each message of `convert.go`. A value
outside the destination's bounds (`... is less than ...`, `... is greater than ...`,
`cannot put ...`) is a RangeError; `cannot assign %v into %T` (no conversion rule for
the destination) is an UnsupportedTargetError; `cannot assign %v %v into %T` (a
non-present source) is a NotAssignableError. -/
def classify (format : String) : Option ErrKind :=
  if format = "cannot assign %v into %T" then some .UnsupportedTargetError
  else if format = "cannot assign %v %v into %T" then some .NotAssignableError
  else if startsWith "%d is less than " format || startsWith "%d is greater than " format
      || format = "cannot put %d into %T" then some .RangeError
  else none

/-- The error kind of an error. -/
def GoError.kind (e : GoError) : Option ErrKind := classify e.format

/-- The error reports a source below zero (and not one above the maximum). -/
def GoError.isBelowZero (e : GoError) : Bool := startsWith "%d is less than zero for " e.format

/-- The call returned an error of kind `k` and left the memory as it was. -/
def Outcome.failsWith (o : Outcome) (k : ErrKind) (h : Heap) : Prop :=
  ∃ e, o = .returned (some e) h ∧ e.kind = some k

/-! ## Type normalizers -/

/-- Go `float64(x)` for a `float32` value `x`, as `reflect.Value.Float` does it: the same
number in the wider format (a NaN stays a NaN, with its payload moved up). -/
def Float32.toFloat64 (x : Float32) : Float64 :=
  let s := x.bits / 2 ^ 31 % 2 * 2 ^ 63
  let e := x.bits / 2 ^ 23 % 2 ^ 8
  let m := x.bits % 2 ^ 23
  if e = 255 then
    if m = 0 then ⟨s + 2047 * 2 ^ 52⟩ else ⟨s + 2047 * 2 ^ 52 + 2 ^ 51 + m % 2 ^ 22 * 2 ^ 29⟩
  else if e = 0 then
    if m = 0 then ⟨s⟩
    else
      let k := topBit 23 m
      ⟨s + (873 + k) * 2 ^ 52 + m * 2 ^ (52 - k)⟩
  else ⟨s + (e + 896) * 2 ^ 52 + m * 2 ^ 29⟩

/-- Not a number. -/
def Float32.isNaN (x : Float32) : Bool := x.bits / 2 ^ 23 % 2 ^ 8 = 255 ∧ x.bits % 2 ^ 23 ≠ 0

/-- Result of a normalizer: the pair `(underlying, changed)` it returned, or a panic. -/
inductive NormResult
  | returned (underlying : Iface) (changed : Bool)
  | panicked
  deriving DecidableEq, Repr

/-- Go `reflect.Value.IsNil` on a value of pointer kind. -/
def Iface.IsNil : Iface → Bool
  | .mk _ (.ptr none) => true
  | _ => false

/-- Go `reflect.Value.Interface` on a variable of type `t` holding `x`: the value `x` with
dynamic type `t` or, for a variable of interface type, what the interface holds. `none`
when `x` cannot be the contents of such a variable. -/
def interfaceOf (t : GoType) (x : Value) : Option Iface :=
  if t.Kind = .Interface then
    match x with
    | .nilIface => some .nil
    | .boxed dt v => some (.mk dt v)
    | _ => none
  else some (.mk t x)

/-- Go `refVal.Elem().Interface()` for `refVal` of pointer kind; dereferencing panics
where there is no variable to read. -/
def elemInterface (h : Heap) (val : Iface) : Option Iface :=
  match val.Elem with
  | .var elT a =>
    match h.read a with
    | some x => interfaceOf elT x
    | none => none
  | .invalid => none

/-- The statements `convVal := refVal.Elem().Interface(); return convVal, true`. -/
def derefChanged (h : Heap) (val : Iface) : NormResult :=
  match elemInterface h val with
  | some convVal => .returned convVal true
  | none => .panicked

/-- Go `reflect.Value.Type`; it panics (`none`) on the zero `reflect.Value`, which is
what `reflect.ValueOf` gives for the nil interface. -/
def Iface.Type : Iface → Option GoType
  | .nil => none
  | .mk t _ => some t

/-- Go `reflect.Value.Int` and `reflect.Value.Uint`: the integer a value of integer kind
holds. -/
def Iface.getInt : Iface → Option Int
  | .mk _ (.int n) => some n
  | _ => none

/-- Go `reflect.Value.Float`: the `float64` a value of kind `Float32` or `Float64` holds. -/
def Iface.getFloat : Iface → Option Float64
  | .mk _ (.float32 x) => some x.toFloat64
  | .mk _ (.float64 f) => some f
  | _ => none

/-- Go `reflect.Value.String` on a value of kind `String`. -/
def Iface.getString : Iface → Option String
  | .mk _ (.string s) => some s
  | _ => none

/-- Go `reflect.Value.Bool`. -/
def Iface.getBool : Iface → Option Bool
  | .mk _ (.bool b) => some b
  | _ => none

/-- The statements `return convVal, reflect.TypeOf(convVal) != refVal.Type()` for a
`convVal` of the predeclared type `K`; `none` stands for a getter that found no value of
the kind it was called for. -/
def returnConverted (val : Iface) (K : GoType) (convVal : Option Value) : NormResult :=
  match convVal, val.Type with
  | some c, some t => .returned (.mk K c) (decide (K ≠ t))
  | _, _ => .panicked

/-- Go `underlyingNumberType`. -/
def underlyingNumberType (arch : Arch) (h : Heap) (val : Iface) : NormResult :=
  match val.Kind with
  | .Ptr =>
    if val.IsNil then .returned .nil false
    else derefChanged h val
  | .Int =>
    returnConverted val .int (val.getInt.map fun n => .int (wrapSigned arch.intSize n))
  | .Int8 => returnConverted val .int8 (val.getInt.map fun n => .int (wrapSigned 8 n))
  | .Int16 => returnConverted val .int16 (val.getInt.map fun n => .int (wrapSigned 16 n))
  | .Int32 => returnConverted val .int32 (val.getInt.map fun n => .int (wrapSigned 32 n))
  | .Int64 => returnConverted val .int64 (val.getInt.map fun n => .int (wrapSigned 64 n))
  | .Uint =>
    returnConverted val .uint (val.getInt.map fun n => .int (wrapUnsigned arch.intSize n))
  | .Uint8 => returnConverted val .uint8 (val.getInt.map fun n => .int (wrapUnsigned 8 n))
  | .Uint16 => returnConverted val .uint16 (val.getInt.map fun n => .int (wrapUnsigned 16 n))
  | .Uint32 => returnConverted val .uint32 (val.getInt.map fun n => .int (wrapUnsigned 32 n))
  | .Uint64 => returnConverted val .uint64 (val.getInt.map fun n => .int (wrapUnsigned 64 n))
  | .Float32 => returnConverted val .float32 (val.getFloat.map fun f => .float32 f.toFloat32)
  | .Float64 => returnConverted val .float64 (val.getFloat.map fun f => .float64 f)
  | .String => returnConverted val .string (val.getString.map fun s => .string s)
  | _ => .returned .nil false

/-- Go `underlyingBoolType`. -/
def underlyingBoolType (h : Heap) (val : Iface) : NormResult :=
  match val.Kind with
  | .Ptr =>
    if val.IsNil then .returned .nil false
    else derefChanged h val
  | .Bool => returnConverted val .bool (val.getBool.map fun b => .bool b)
  | _ => .returned .nil false

/-- Go `underlyingPtrType`. -/
def underlyingPtrType (h : Heap) (val : Iface) : NormResult :=
  match val.Kind with
  | .Ptr =>
    if val.IsNil then .returned .nil false
    else derefChanged h val
  | _ => .returned .nil false

/-- The underlying type of a type: a defined type stands for the type it was defined
from. -/
def GoType.underlying : GoType → GoType
  | .named _ u => u.underlying
  | t => t

/-- The integer and floating-point kinds. -/
def isNumericKind (k : Kind) : Bool :=
  isIntegerKind k || k = .Uintptr || k = .Float32 || k = .Float64

/-- The predeclared types `byte` (`uint8`) and `rune` (`int32`). -/
def GoType.isByteOrRune : GoType → Bool
  | .uint8 => true
  | .int32 => true
  | _ => false

/-- Go `reflect.Type.ConvertibleTo`: identical underlying types; unnamed pointer types
whose base types have identical underlying types; two numeric types; two complex types;
an integer or a slice of bytes or runes to a string type; a string to a slice of bytes
or runes. Conversion to an interface type and of a slice to an array are left out: no
normalizer converts to a type of these kinds. -/
def ConvertibleTo (t u : GoType) : Bool :=
  t.underlying = u.underlying
    || (match t, u with
        | .ptr a, .ptr b => decide (a.underlying = b.underlying)
        | _, _ => false)
    || (isNumericKind t.Kind && isNumericKind u.Kind)
    || ((t.Kind = .Complex64 || t.Kind = .Complex128)
        && (u.Kind = .Complex64 || u.Kind = .Complex128))
    || ((isIntegerKind t.Kind || t.Kind = .Uintptr) && u.Kind = .String)
    || (match t.underlying with
        | .slice e => e.isByteOrRune && u.Kind = .String
        | _ => false)
    || (match u.underlying with
        | .slice e => e.isByteOrRune && t.Kind = .String
        | _ => false)

/-- Go `reflect.Value.Convert` to a type the value is convertible to with the same
underlying type: the contents stay, the dynamic type becomes `u`. -/
def convertTo (u : GoType) (v : Value) : Iface := .mk u v

/-- The type `time.Time`, a struct type defined in package `time`; its three fields are
not exported, so a struct type declared in another package is never identical to its
underlying type. -/
def timeType : GoType :=
  .named "time.Time"
    (.struct "struct { time.wall uint64; time.ext int64; time.loc *time.Location }")

/-- Go `time.Time{}` as an `interface{}`. -/
def zeroTime : Iface := .mk timeType timeType.zero

/-- Go `underlyingTimeType`. -/
def underlyingTimeType (h : Heap) (val : Iface) : NormResult :=
  match val.Kind with
  | .Ptr =>
    if val.IsNil then .returned zeroTime false
    else derefChanged h val
  | _ =>
    match val with
    | .nil => .panicked
    | .mk t v =>
      if ConvertibleTo t timeType then .returned (convertTo timeType v) true
      else .returned zeroTime false

/-- Go `underlyingSliceType`. -/
def underlyingSliceType (h : Heap) (val : Iface) : NormResult :=
  match val.Kind with
  | .Ptr =>
    if val.IsNil then .returned .nil false
    else derefChanged h val
  | .Slice =>
    match val with
    | .nil => .panicked
    | .mk t v =>
      match t.Elem with
      | none => .panicked
      | some e =>
        let baseSliceType := GoType.slice e
        if ConvertibleTo t baseSliceType then
          .returned (convertTo baseSliceType v) (decide (baseSliceType ≠ t))
        else .returned .nil false
  | _ => .returned .nil false

/-- Go `underlyingPtrSliceType`. `reflect.TypeOf(sliceVal).Elem()` panics when `sliceVal`
is the nil interface and when its type has no element type. -/
def underlyingPtrSliceType (h : Heap) (val : Iface) : NormResult :=
  if val.Kind ≠ .Ptr then .returned .nil false
  else if val.IsNil then .returned .nil false
  else
    match elemInterface h val, val with
    | some (.mk sliceT _), .mk t v =>
      match sliceT.Elem with
      | none => .panicked
      | some e =>
        let baseSliceType := GoType.slice e
        let ptrBaseSliceType := GoType.ptr baseSliceType
        if ConvertibleTo t ptrBaseSliceType then
          .returned (convertTo ptrBaseSliceType v) (decide (ptrBaseSliceType ≠ t))
        else .returned .nil false
    | _, _ => .panicked

/-! ## Memory before and after a failed call -/

/-- The call ended without recursing further: it panicked, returned nil, or returned an
error leaving the memory `h` it started from. -/
def Outcome.isLeaf (o : Outcome) (h : Heap) : Prop :=
  o = .panicked ∨ (∃ h1, o = .returned none h1) ∨ (∃ e, o = .returned (some e) h)

/-- The destination is a non-nil pointer to a variable of the heap that is itself of
pointer kind: the one situation in which a `Present` assignment recurses. -/
def Iface.recurses (h : Heap) (d : Iface) : Prop :=
  ∃ t a elT cur, d = .mk t (.ptr (some a)) ∧ t.Kind = .Ptr ∧ t.Elem = some elT
    ∧ elT.Kind = .Ptr ∧ h.read a = some cur

/-! ## Live destinations -/

/-- A destination with `n` pointer levels that the caller can hand over: the pointer
itself is not nil and points to a variable of the heap, and so does, level after level,
every inner pointer that is not nil (a nil inner pointer is allowed: it is the
"unallocated" destination that the assignment allocates). -/
def liveChain (h : Heap) : Nat → GoType → Value → Bool
  | 0, _, _ => true
  | n + 1, t, p =>
    match p, t.Elem with
    | .ptr (some a), some elT =>
      match h.read a with
      | some cur =>
        if elT.Kind = .Ptr then decide (cur = .ptr none) || liveChain h n elT cur else true
      | none => false
    | _, _ => false

/-- The destination is live at each of its pointer levels; a destination that is no
pointer, and the nil interface, have no level to check. -/
def Iface.isLive (h : Heap) : Iface → Bool
  | .nil => true
  | .mk t p => liveChain h t.ptrDepth t p

/-! ## Values of the primitive kinds -/

/-- The predeclared types `underlyingNumberType` has a case for: the ten integer types,
`float32`, `float64` and `string`. -/
def GoType.IsNumberType : GoType → Bool
  | .int | .int8 | .int16 | .int32 | .int64 => true
  | .uint | .uint8 | .uint16 | .uint32 | .uint64 => true
  | .float32 | .float64 | .string => true
  | _ => false

/-- The contents `x` are those of a variable of the predeclared type `K`: an integer in
the range of `K`, a 32-bit pattern for `float32`, a `float64`, a string. -/
def holdsKind (arch : Arch) (K : GoType) (x : Value) : Bool :=
  match K, x with
  | .float32, .float32 f => f.bits < 2 ^ 32
  | .float64, .float64 _ => true
  | .string, .string _ => true
  | K, .int n => K.IsBuiltinInt && minValue arch K.Kind ≤ n && n ≤ maxValue arch K.Kind
  | _, _ => false

/-- The two contents are the same number, text or truth value: they are equal, or they
are both `float32` NaNs. -/
def sameContent (x y : Value) : Bool :=
  match x, y with
  | .float32 f, .float32 g => f = g || (f.isNaN && g.isNaN)
  | x, y => x = y

/-! ## Well-formed arguments of the normalizers -/

/-- The contents `v` are contents of a variable of kind `k`, for the kinds the
normalizers read the contents of. -/
def kindFits (k : Kind) (v : Value) : Bool :=
  if isIntegerKind k then
    match v with
    | .int _ => true
    | _ => false
  else
    match k, v with
    | .Float32, .float32 _ => true
    | .Float32, _ => false
    | .Float64, .float64 _ => true
    | .Float64, _ => false
    | .String, .string _ => true
    | .String, _ => false
    | .Bool, .bool _ => true
    | .Bool, _ => false
    | .Ptr, .ptr _ => true
    | .Ptr, _ => false
    | _, _ => true

/-- An argument a Go program can pass: the contents fit the kind of the dynamic type, and
a pointer that is not nil points to a variable whose contents can be read. -/
def Iface.wellFormed (h : Heap) : Iface → Bool
  | .nil => true
  | .mk t v =>
    kindFits t.Kind v &&
      match v with
      | .ptr (some _) => (elemInterface h (.mk t v)).isSome
      | _ => true

/-! ## The descent through a pointer-to-pointer destination

The definitions of this section describe the memory, not the code: they say which
variable a failed call has changed and which variables it has added, and the theorems
compare them with what `int64AssignToAux` and `float64AssignToAux` compute. -/

/-- The first nil inner pointer a `Present` assignment meets on its way down the pointer
levels of a destination of type `t` holding `p`: its address and the type it points to.
The descent goes on while the destination is a non-nil pointer to a variable of pointer
kind, and moves to the contents of that variable; `none` when it ends without meeting a
nil inner pointer. The first argument bounds the number of levels (`t.ptrDepth`
suffices). -/
def firstNil (h : Heap) : Nat → GoType → Value → Option (Nat × GoType)
  | 0, _, _ => none
  | n + 1, t, p =>
    match p, t.Elem with
    | .ptr (some a), some elT =>
      if t.Kind = .Ptr ∧ elT.Kind = .Ptr then
        match h.read a, elT.Elem with
        | some cur, some T => if cur = .ptr none then some (a, T) else firstNil h n elT cur
        | _, _ => none
      else none
    | _, _ => none

/-- The first nil inner pointer met on the descent of a destination; the nil interface
has none. -/
def Iface.firstNil (h : Heap) : Iface → Option (Nat × GoType)
  | .nil => none
  | .mk t p => Pgtype.firstNil h t.ptrDepth t p

/-- The variables allocated below a nil pointer to `T`, the first of them at address
`base`: a new variable of type `T`, and, as long as the new variable is itself a pointer,
the variable allocated for it at the next address, to which it points. The last variable
holds the zero value of its type. The first argument bounds the number of levels
(`T.ptrDepth` suffices). -/
def freshChain : Nat → GoType → Nat → List Value
  | 0, T, _ => [T.zero]
  | n + 1, T, base =>
    match T.Elem with
    | some T1 =>
      if T.Kind = .Ptr then .ptr (some (base + 1)) :: freshChain n T1 (base + 1)
      else [T.zero]
    | none => [T.zero]

/-- The memory a failed assignment leaves behind: the memory before the call when the
status is not `Present` or the descent meets no nil inner pointer; otherwise the memory
before the call in which the first nil inner pointer of the descent points to the first
free address, followed by the variables allocated below it. -/
def Iface.afterFailure (h : Heap) (s : Status) (d : Iface) : Heap :=
  if s = .Present then
    match d.firstNil h with
    | some (a, T) =>
      ⟨h.cells.set a (.ptr (some h.cells.length)) ++ freshChain T.ptrDepth T h.cells.length⟩
    | none => h
  else h

/-! # Theorems -/

/-! ## Memory lemmas -/

theorem Heap.read_of_store {h h1 : Heap} {a : Nat} {x : Value} (hs : h.store a x = some h1) :
    h1.read a = some x := by
  unfold Heap.store at hs
  split at hs
  · cases hs
    simp [Heap.read, *]
  · cases hs

theorem Heap.store_of_lt {h : Heap} {a : Nat} (x : Value) (ha : a < h.cells.length) :
    h.store a x = some ⟨h.cells.set a x⟩ := by
  simp [Heap.store, ha]

theorem Heap.read_set_self (cells : List Value) (b : Nat) (x : Value)
    (hb : b < cells.length) : (Heap.mk (cells.set b x)).read b = some x := by
  simp [Heap.read, hb]

theorem Heap.read_set_ne (cells : List Value) {a b : Nat} (x : Value) (hne : b ≠ a) :
    (Heap.mk (cells.set b x)).read a = (Heap.mk cells).read a := by
  simp [Heap.read, List.getElem?_set, hne]

/-! ## The reflection primitives on in-range and out-of-range values -/

theorem OverflowInt_iff (arch : Arch) (k : Kind) (v : Int) (hk : isSignedKind k = true)
    (hv : IsInt64 v) :
    OverflowInt arch k v = true ↔ (v < minValue arch k ∨ maxValue arch k < v) := by
  unfold IsInt64 MinInt64 MaxInt64 at hv
  cases k <;> simp [isSignedKind] at hk <;> cases arch <;>
    simp [OverflowInt, minValue, maxValue, isSignedKind, Kind.bitSize, Arch.intSize,
      wrapSigned] <;>
    omega

theorem OverflowUint_iff (arch : Arch) (k : Kind) (v : Int) (hk : isUnsignedKind k = true)
    (hv : IsInt64 v) (h0 : 0 ≤ v) :
    OverflowUint arch k (wrapUnsigned 64 v) = true ↔ maxValue arch k < v := by
  unfold IsInt64 MinInt64 MaxInt64 at hv
  cases k <;> simp [isUnsignedKind] at hk <;> cases arch <;>
    simp [OverflowUint, minValue, maxValue, isSignedKind, Kind.bitSize, Arch.intSize,
      wrapUnsigned] <;>
    omega

theorem SetInt_of_range (arch : Arch) (k : Kind) (v : Int) (hk : isSignedKind k = true)
    (hlo : minValue arch k ≤ v) (hhi : v ≤ maxValue arch k) :
    SetInt arch k v = .int v := by
  cases k <;> simp [isSignedKind] at hk <;> cases arch <;>
    simp [minValue, maxValue, isSignedKind, Kind.bitSize, Arch.intSize] at hlo hhi <;>
    simp [SetInt, Kind.bitSize, Arch.intSize, wrapSigned] <;>
    omega

theorem SetUint_of_range (arch : Arch) (k : Kind) (v : Int) (hk : isUnsignedKind k = true)
    (hv : IsInt64 v) (hlo : 0 ≤ v) (hhi : v ≤ maxValue arch k) :
    SetUint arch k (wrapUnsigned 64 v) = .int v := by
  unfold IsInt64 MinInt64 MaxInt64 at hv
  cases k <;> simp [isUnsignedKind] at hk <;> cases arch <;>
    simp [minValue, maxValue, isSignedKind, Kind.bitSize, Arch.intSize] at hlo hhi <;>
    simp [SetUint, Kind.bitSize, Arch.intSize, wrapUnsigned] <;>
    omega

theorem int64AssignToAux_default (arch : Arch) (fuel : Nat) (srcVal : Int) (dst : Iface)
    (h : Heap) (hc : dst.hasIntCase = false) :
    int64AssignToAux arch (fuel + 1) srcVal .Present dst h
      = int64Default arch fuel srcVal dst h := by
  cases dst with
  | nil => rfl
  | mk t p =>
    cases t
    case ptr e => cases e <;> first | rfl | simp [Iface.hasIntCase, GoType.IsBuiltinInt] at hc
    all_goals rfl

theorem failsWith_intro {e : GoError} {k : ErrKind} {h : Heap} (hk : e.kind = some k) :
    (Outcome.returned (some e) h).failsWith k h := ⟨e, rfl, hk⟩

/-! ## The typed cases -/

theorem int64AssignTo_typed_ok (arch : Arch) (K : GoType) (v : Int) (p : Value) (h : Heap)
    (hK : K.IsBuiltinInt = true)
    (hlo : minValue arch K.Kind ≤ v) (hhi : v ≤ maxValue arch K.Kind) :
    int64AssignTo arch v .Present (.mk (.ptr K) p) h = assignDeref p (.int v) h := by
  cases K <;> simp [GoType.IsBuiltinInt] at hK <;> cases arch <;>
    simp [minValue, maxValue, isSignedKind, GoType.Kind, Kind.bitSize, Arch.intSize] at hlo hhi <;>
    simp [int64AssignTo, int64AssignToAux, Iface.ptrDepth, GoType.ptrDepth,
      minInt, maxInt, maxUint, Arch.intSize, MinInt8, MaxInt8, MinInt16,
      MaxInt16, MinInt32, MaxInt32, MinInt64, MaxInt64, MaxUint8, MaxUint16, MaxUint32,
      wrapSigned, wrapUnsigned] <;>
    split_ifs <;>
    first
      | omega
      | (refine congrArg (fun z => assignDeref p (Value.int z) h) ?_
         omega)

theorem int64AssignTo_typed_range (arch : Arch) (K : GoType) (v : Int) (p : Value) (h : Heap)
    (hK : K.IsBuiltinInt = true) (hv : IsInt64 v)
    (hr : v < minValue arch K.Kind ∨ maxValue arch K.Kind < v) :
    (int64AssignTo arch v .Present (.mk (.ptr K) p) h).failsWith .RangeError h := by
  unfold IsInt64 MinInt64 MaxInt64 at hv
  cases K <;> simp [GoType.IsBuiltinInt] at hK <;> cases arch <;>
    simp [minValue, maxValue, isSignedKind, GoType.Kind, Kind.bitSize, Arch.intSize] at hr <;>
    simp only [int64AssignTo, int64AssignToAux, Iface.ptrDepth, GoType.ptrDepth, if_true] <;>
    simp only [minInt, maxInt, maxUint, Arch.intSize, MinInt8, MaxInt8, MinInt16,
      MaxInt16, MinInt32, MaxInt32, MinInt64, MaxInt64, MaxUint8, MaxUint16, MaxUint32,
      wrapUnsigned] <;>
    split_ifs <;>
    first
      | exact failsWith_intro rfl
      | omega

theorem int64AssignTo_typed_neg (arch : Arch) (K : GoType) (v : Int) (p : Value) (h : Heap)
    (hK : K.IsBuiltinInt = true) (hu : isUnsignedKind K.Kind = true) (hneg : v < 0) :
    ∃ e, int64AssignTo arch v .Present (.mk (.ptr K) p) h = .returned (some e) h
      ∧ e.kind = some .RangeError ∧ e.isBelowZero = true := by
  cases K <;> simp [GoType.IsBuiltinInt] at hK <;>
    simp [GoType.Kind, isUnsignedKind] at hu <;>
    simp only [int64AssignTo, int64AssignToAux, Iface.ptrDepth, GoType.ptrDepth, if_true,
      if_pos hneg] <;>
    exact ⟨_, rfl, rfl, rfl⟩

/-! ## A pointer to a variable of integer kind -/

theorem int64Default_signed (arch : Arch) (fuel : Nat) (v : Int) (t T : GoType) (a : Nat)
    (h : Heap) (hk : t.Kind = .Ptr) (he : t.Elem = some T) (hs : isSignedKind T.Kind = true) :
    int64Default arch fuel v (.mk t (.ptr (some a))) h =
      if OverflowInt arch T.Kind v then
        .returned (some (Errorf "cannot put %d into %T"
          [.int64 v, .iface (.mk t (.ptr (some a)))])) h
      else setAndReturn h a (SetInt arch T.Kind v) := by
  simp only [int64Default, Iface.Kind, hk, Iface.Elem, he, if_true]
  generalize T.Kind = k at hs
  cases k <;> simp [isSignedKind] at hs <;> rfl

theorem int64Default_unsigned (arch : Arch) (fuel : Nat) (v : Int) (t T : GoType) (a : Nat)
    (h : Heap) (hk : t.Kind = .Ptr) (he : t.Elem = some T)
    (hs : isUnsignedKind T.Kind = true) :
    int64Default arch fuel v (.mk t (.ptr (some a))) h =
      if v < 0 then
        .returned (some (Errorf "%d is less than zero for %T"
          [.int64 v, .iface (.mk t (.ptr (some a)))])) h
      else if OverflowUint arch T.Kind (wrapUnsigned 64 v) then
        .returned (some (Errorf "cannot put %d into %T"
          [.int64 v, .iface (.mk t (.ptr (some a)))])) h
      else setAndReturn h a (SetUint arch T.Kind (wrapUnsigned 64 v)) := by
  simp only [int64Default, Iface.Kind, hk, Iface.Elem, he, if_true]
  generalize T.Kind = k at hs
  cases k <;> simp [isUnsignedKind] at hs <;> rfl

theorem hasIntCase_kind {t T : GoType} {p : Value} (h : (Iface.mk t p).hasIntCase = true)
    (he : t.Elem = some T) : t = .ptr T ∧ T.IsBuiltinInt = true := by
  cases t <;> simp [Iface.hasIntCase] at h
  simp only [GoType.Elem, Option.some.injEq] at he
  subst he
  exact ⟨rfl, h⟩

theorem ptrDepth_of_elem {t T : GoType} (hk : t.Kind = .Ptr) (he : t.Elem = some T) :
    t.ptrDepth = T.ptrDepth + 1 := by
  induction t with
  | named n u ih => exact ih hk he
  | ptr e =>
    simp only [GoType.Elem, Option.some.injEq] at he
    subst he
    rfl
  | _ => simp [GoType.Kind] at hk

theorem float64AssignToAux_default (arch : Arch) (fuel : Nat) (srcVal : Float64) (dst : Iface)
    (h : Heap) (hc : dst.hasFloatCase = false) :
    float64AssignToAux arch (fuel + 1) srcVal .Present dst h
      = float64Default arch fuel srcVal dst h := by
  cases dst with
  | nil => rfl
  | mk t p =>
    cases t
    case ptr e => cases e <;> first | rfl | simp [Iface.hasFloatCase] at hc
    all_goals rfl

theorem minValue_unsigned (arch : Arch) (k : Kind) (hu : isUnsignedKind k = true) :
    minValue arch k = 0 := by
  cases k <;> simp [isUnsignedKind] at hu <;> rfl

theorem int64AssignTo_ptrInt_ok (arch : Arch) (t T : GoType) (v : Int) (a : Nat) (h : Heap)
    (hk : t.Kind = .Ptr) (he : t.Elem = some T) (hT : isIntegerKind T.Kind = true)
    (hv : IsInt64 v) (hlo : minValue arch T.Kind ≤ v) (hhi : v ≤ maxValue arch T.Kind)
    (ha : a < h.cells.length) :
    int64AssignTo arch v .Present (.mk t (.ptr (some a))) h
      = .returned none ⟨h.cells.set a (.int v)⟩ := by
  by_cases hc : (Iface.mk t (.ptr (some a))).hasIntCase = true
  · obtain ⟨rfl, hK⟩ := hasIntCase_kind hc he
    rw [int64AssignTo_typed_ok arch T v _ h hK hlo hhi]
    simp [assignDeref, Heap.store_of_lt _ ha]
  · have hc1 : (Iface.mk t (.ptr (some a))).hasIntCase = false := by simpa using hc
    unfold int64AssignTo
    rw [int64AssignToAux_default _ _ _ _ _ hc1]
    rcases Bool.or_eq_true _ _ ▸ hT with hs | hu
    · have ho : OverflowInt arch T.Kind v = false := by
        rw [← Bool.not_eq_true, OverflowInt_iff arch _ v hs hv]
        omega
      rw [int64Default_signed arch _ v t T a h hk he hs, ho,
        SetInt_of_range arch _ v hs hlo hhi]
      simp [setAndReturn, Heap.store_of_lt _ ha]
    · have h0 : 0 ≤ v := by
        rw [minValue_unsigned arch _ hu] at hlo
        exact hlo
      have ho : OverflowUint arch T.Kind (wrapUnsigned 64 v) = false := by
        rw [← Bool.not_eq_true, OverflowUint_iff arch _ v hu hv h0]
        omega
      rw [int64Default_unsigned arch _ v t T a h hk he hu, if_neg (by omega), ho,
        SetUint_of_range arch _ v hu hv h0 hhi]
      simp [setAndReturn, Heap.store_of_lt _ ha]

theorem int64AssignTo_ptrInt_range (arch : Arch) (t T : GoType) (v : Int) (a : Nat) (h : Heap)
    (hk : t.Kind = .Ptr) (he : t.Elem = some T) (hT : isIntegerKind T.Kind = true)
    (hv : IsInt64 v) (hr : v < minValue arch T.Kind ∨ maxValue arch T.Kind < v) :
    (int64AssignTo arch v .Present (.mk t (.ptr (some a))) h).failsWith .RangeError h := by
  by_cases hc : (Iface.mk t (.ptr (some a))).hasIntCase = true
  · obtain ⟨rfl, hK⟩ := hasIntCase_kind hc he
    exact int64AssignTo_typed_range arch T v _ h hK hv hr
  · have hc1 : (Iface.mk t (.ptr (some a))).hasIntCase = false := by simpa using hc
    unfold int64AssignTo
    rw [int64AssignToAux_default _ _ _ _ _ hc1]
    rcases Bool.or_eq_true _ _ ▸ hT with hs | hu
    · have ho : OverflowInt arch T.Kind v = true := (OverflowInt_iff arch _ v hs hv).2 hr
      rw [int64Default_signed arch _ v t T a h hk he hs, ho]
      exact failsWith_intro rfl
    · rw [int64Default_unsigned arch _ v t T a h hk he hu]
      by_cases hneg : v < 0
      · rw [if_pos hneg]
        exact failsWith_intro rfl
      · have h0 : 0 ≤ v := by omega
        have hmax : maxValue arch T.Kind < v := by
          rw [minValue_unsigned arch _ hu] at hr
          omega
        have ho : OverflowUint arch T.Kind (wrapUnsigned 64 v) = true :=
          (OverflowUint_iff arch _ v hu hv h0).2 hmax
        rw [if_neg hneg, ho]
        exact failsWith_intro rfl

theorem int64AssignTo_ptrUint_neg (arch : Arch) (t T : GoType) (v : Int) (a : Nat) (h : Heap)
    (hk : t.Kind = .Ptr) (he : t.Elem = some T) (hu : isUnsignedKind T.Kind = true)
    (hneg : v < 0) :
    ∃ e, int64AssignTo arch v .Present (.mk t (.ptr (some a))) h = .returned (some e) h
      ∧ e.kind = some .RangeError ∧ e.isBelowZero = true := by
  by_cases hc : (Iface.mk t (.ptr (some a))).hasIntCase = true
  · obtain ⟨rfl, hK⟩ := hasIntCase_kind hc he
    exact int64AssignTo_typed_neg arch T v _ h hK hu hneg
  · have hc1 : (Iface.mk t (.ptr (some a))).hasIntCase = false := by simpa using hc
    unfold int64AssignTo
    rw [int64AssignToAux_default _ _ _ _ _ hc1,
      int64Default_unsigned arch _ v t T a h hk he hu, if_pos hneg]
    exact ⟨_, rfl, rfl, rfl⟩

/-! ## A pointer to a pointer -/

theorem Heap.lt_of_read {h : Heap} {a : Nat} {x : Value} (hr : h.read a = some x) :
    a < h.cells.length := by
  unfold Heap.read at hr
  exact (List.getElem?_eq_some.1 hr).1

theorem hasIntCase_of_elem_ptr {t t1 : GoType} (p : Value) (he : t.Elem = some t1)
    (hk1 : t1.Kind = .Ptr) : (Iface.mk t p).hasIntCase = false := by
  cases t <;> try rfl
  case ptr e =>
    simp only [GoType.Elem, Option.some.injEq] at he
    subst he
    cases e <;> first | rfl | simp [GoType.Kind] at hk1

theorem int64AssignToAux_inner (arch : Arch) (t t1 : GoType) (p q : Value) (v : Int)
    (s : Status) (h : Heap) (hk : t.Kind = .Ptr) (he : t.Elem = some t1) :
    int64AssignToAux arch (Iface.mk t p).ptrDepth v s (.mk t1 q) h
      = int64AssignTo arch v s (.mk t1 q) h := by
  simp only [int64AssignTo, Iface.ptrDepth, ptrDepth_of_elem hk he]

/-- Present, pointer to an empty pointer: allocate, then assign to the new variable. -/
theorem int64AssignTo_ptrPtr_nil (arch : Arch) (t t1 T : GoType) (v : Int) (a : Nat)
    (h : Heap) (hk : t.Kind = .Ptr) (he : t.Elem = some t1) (hk1 : t1.Kind = .Ptr)
    (he1 : t1.Elem = some T) (hcell : h.read a = some (.ptr none)) :
    int64AssignTo arch v .Present (.mk t (.ptr (some a))) h
      = int64AssignTo arch v .Present (.mk t1 (.ptr (some h.cells.length)))
          (h.allocInto a T) := by
  have ha : a < h.cells.length := Heap.lt_of_read hcell
  have hst : (h.alloc T.zero).2.store a (.ptr (some (h.alloc T.zero).1))
      = some (h.allocInto a T) := by
    simp only [Heap.alloc, Heap.store, Heap.allocInto, List.length_append, List.length_singleton]
    rw [if_pos (by omega)]
  rw [← int64AssignToAux_inner arch t t1 (.ptr (some a)) _ v .Present _ hk he]
  conv_lhs => unfold int64AssignTo
  rw [int64AssignToAux_default _ _ _ _ _ (hasIntCase_of_elem_ptr _ he hk1)]
  simp only [int64Default, Iface.Kind, hk, Iface.Elem, he, hk1, hcell, he1, if_true, hst]
  rfl

/-- Present, pointer to a non-empty pointer: assign through the inner pointer. -/
theorem int64AssignTo_ptrPtr_some (arch : Arch) (t t1 : GoType) (v : Int) (a : Nat)
    (cur : Value) (h : Heap) (hk : t.Kind = .Ptr) (he : t.Elem = some t1)
    (hk1 : t1.Kind = .Ptr) (hcell : h.read a = some cur) (hcur : cur ≠ .ptr none) :
    int64AssignTo arch v .Present (.mk t (.ptr (some a))) h
      = int64AssignTo arch v .Present (.mk t1 cur) h := by
  rw [← int64AssignToAux_inner arch t t1 (.ptr (some a)) _ v .Present _ hk he]
  conv_lhs => unfold int64AssignTo
  rw [int64AssignToAux_default _ _ _ _ _ (hasIntCase_of_elem_ptr _ he hk1)]
  simp only [int64Default, Iface.Kind, hk, Iface.Elem, he, hk1, hcell, if_true, if_neg hcur]

/-! ## A source that is not `Present` -/

theorem zero_of_kind_ptr {t : GoType} (hk : t.Kind = .Ptr) : t.zero = .ptr none := by
  induction t with
  | named n u ih => exact ih hk
  | ptr e => rfl
  | _ => simp [GoType.Kind] at hk

theorem pointeeKind_of_elem {t t1 : GoType} (p : Value) (hk : t.Kind = .Ptr)
    (he : t.Elem = some t1) : (Iface.mk t p).pointeeKind = t1.Kind := by
  simp [Iface.pointeeKind, hk, he]

theorem elem_of_kind_ptr {t : GoType} (hk : t.Kind = .Ptr) : ∃ t1, t.Elem = some t1 := by
  induction t with
  | named n u ih => exact ih hk
  | ptr e => exact ⟨e, rfl⟩
  | _ => simp [GoType.Kind] at hk

theorem int64AssignTo_notPresent (arch : Arch) (v : Int) (s : Status) (d : Iface) (h : Heap)
    (hs : s ≠ .Present) :
    int64AssignTo arch v s d h
      = clearOrFail (Errorf "cannot assign %v %v into %T" [.int64 v, .status s, .iface d])
          d h := by
  simp only [int64AssignTo, int64AssignToAux, hs, if_false, clearOrFail]

theorem float64AssignTo_notPresent (arch : Arch) (f : Float64) (s : Status) (d : Iface)
    (h : Heap) (hs : s ≠ .Present) :
    float64AssignTo arch f s d h
      = clearOrFail (Errorf "cannot assign %v %v into %T" [.float64 f, .status s, .iface d])
          d h := by
  simp only [float64AssignTo, float64AssignToAux, hs, if_false, clearOrFail]

theorem clearOrFail_clear (na : GoError) (t t1 : GoType) (a : Nat) (h : Heap)
    (hk : t.Kind = .Ptr) (he : t.Elem = some t1) (hk1 : t1.Kind = .Ptr)
    (ha : a < h.cells.length) :
    clearOrFail na (.mk t (.ptr (some a))) h = .returned none ⟨h.cells.set a (.ptr none)⟩ := by
  simp [clearOrFail, Iface.Kind, hk, Iface.Elem, he, hk1, setAndReturn, Heap.store_of_lt _ ha,
    zero_of_kind_ptr hk1]

theorem clearOrFail_eq (na : GoError) (d : Iface) (h : Heap) (hlive : d.live h = true) :
    clearOrFail na d h
      = if d.isRefToRef h = true then .returned none (h.clearInner d)
        else .returned (some na) h := by
  cases d with
  | nil => simp [clearOrFail, Iface.Kind, Iface.isRefToRef]
  | mk t p =>
    by_cases hk : t.Kind = .Ptr
    · obtain ⟨t1, he⟩ := elem_of_kind_ptr hk
      cases p with
      | ptr o =>
        cases o with
        | none => simp [clearOrFail, Iface.Kind, hk, Iface.Elem, Iface.isRefToRef]
        | some a =>
          have ha : a < h.cells.length := by simpa [Iface.live] using hlive
          by_cases hk1 : t1.Kind = .Ptr
          · rw [clearOrFail_clear na t t1 a h hk he hk1 ha]
            simp [Iface.isRefToRef, pointeeKind_of_elem _ hk he, hk1, ha, Heap.clearInner]
          · simp [clearOrFail, Iface.Kind, hk, Iface.Elem, he, hk1, Iface.isRefToRef,
              pointeeKind_of_elem _ hk he]
      | _ => simp [clearOrFail, Iface.Kind, hk, Iface.Elem, Iface.isRefToRef]
    · cases p with
      | ptr o =>
        cases o <;> simp [clearOrFail, Iface.Kind, hk, Iface.isRefToRef, Iface.pointeeKind]
      | _ => simp [clearOrFail, Iface.Kind, hk, Iface.isRefToRef]

/-! ## Destinations without a conversion rule -/

theorem hasIntCase_pointeeKind {d : Iface} (hc : d.hasIntCase = true) :
    isIntegerKind d.pointeeKind = true := by
  cases d with
  | nil => simp [Iface.hasIntCase] at hc
  | mk t p =>
    cases t <;> simp [Iface.hasIntCase] at hc
    case ptr e => cases e <;> first | rfl | simp [GoType.IsBuiltinInt] at hc

theorem int64Default_unsupported (arch : Arch) (fuel : Nat) (v : Int) (d : Iface) (h : Heap)
    (hd : isIntegerKind d.pointeeKind = false) (hp : d.pointeeKind ≠ .Ptr) :
    int64Default arch fuel v d h
      = .returned (some (Errorf "cannot assign %v into %T" [.int64 v, .iface d])) h := by
  cases d with
  | nil => simp [int64Default, Iface.Kind]
  | mk t p =>
    by_cases hk : t.Kind = .Ptr
    · obtain ⟨t1, he⟩ := elem_of_kind_ptr hk
      rw [pointeeKind_of_elem p hk he] at hd hp
      cases p with
      | ptr o =>
        cases o with
        | none => simp [int64Default, Iface.Kind, hk, Iface.Elem]
        | some a =>
          simp only [int64Default, Iface.Kind, hk, Iface.Elem, he, if_true]
          generalize t1.Kind = k at hd hp
          cases k <;> first | rfl | simp [isIntegerKind, isSignedKind, isUnsignedKind] at hd hp
      | _ => simp [int64Default, Iface.Kind, hk, Iface.Elem]
    · simp [int64Default, Iface.Kind, hk]

theorem float64Default_unsupported (arch : Arch) (fuel : Nat) (f : Float64) (d : Iface)
    (h : Heap) (hd : isIntegerKind d.pointeeKind = false) (hp : d.pointeeKind ≠ .Ptr) :
    float64Default arch fuel f d h
      = .returned (some (Errorf "cannot assign %v into %T" [.float64 f, .iface d])) h := by
  cases d with
  | nil => simp [float64Default, Iface.Kind]
  | mk t p =>
    by_cases hk : t.Kind = .Ptr
    · obtain ⟨t1, he⟩ := elem_of_kind_ptr hk
      rw [pointeeKind_of_elem p hk he] at hd hp
      cases p with
      | ptr o =>
        cases o with
        | none => simp [float64Default, Iface.Kind, hk, Iface.Elem]
        | some a =>
          simp only [float64Default, Iface.Kind, hk, Iface.Elem, he, if_true]
          generalize t1.Kind = k at hd hp
          cases k <;> first | rfl | simp [isIntegerKind, isSignedKind, isUnsignedKind] at hd hp
      | _ => simp [float64Default, Iface.Kind, hk, Iface.Elem]
    · simp [float64Default, Iface.Kind, hk]

theorem float64Default_integer (arch : Arch) (fuel : Nat) (f : Float64) (t T : GoType)
    (a : Nat) (h : Heap) (hk : t.Kind = .Ptr) (he : t.Elem = some T)
    (hT : isIntegerKind T.Kind = true) :
    float64Default arch fuel f (.mk t (.ptr (some a))) h =
      if (Float64.ofInt64 f.toInt64).eq f = true then
        int64AssignTo arch f.toInt64 .Present (.mk t (.ptr (some a))) h
      else
        .returned (some (Errorf "cannot assign %v into %T"
          [.float64 f, .iface (.mk t (.ptr (some a)))])) h := by
  simp only [float64Default, Iface.Kind, hk, Iface.Elem, he, if_true]
  generalize T.Kind = k at hT
  cases k <;> simp [isIntegerKind, isSignedKind, isUnsignedKind] at hT <;> rfl

theorem hasFloatCase_of_integer {t T : GoType} (p : Value) (he : t.Elem = some T)
    (hT : isIntegerKind T.Kind = true) : (Iface.mk t p).hasFloatCase = false := by
  cases t <;> try rfl
  case ptr e =>
    simp only [GoType.Elem, Option.some.injEq] at he
    subst he
    cases e <;> first | rfl | simp [GoType.Kind, isIntegerKind, isSignedKind, isUnsignedKind] at hT

/-! ## The recursion budget is never exhausted -/

theorem assignDeref_ne_outOfFuel (p x : Value) (h : Heap) :
    assignDeref p x h ≠ .outOfFuel := by
  unfold assignDeref
  split
  · split <;> simp
  · simp

theorem setAndReturn_ne_outOfFuel (h : Heap) (a : Nat) (x : Value) :
    setAndReturn h a x ≠ .outOfFuel := by
  unfold setAndReturn
  split <;> simp

theorem clearOrFail_ne_outOfFuel (na : GoError) (d : Iface) (h : Heap) :
    clearOrFail na d h ≠ .outOfFuel := by
  unfold clearOrFail
  split
  · split
    · split
      · exact setAndReturn_ne_outOfFuel _ _ _
      · simp
    · simp
  · simp

theorem elem_var {d : Iface} {elT : GoType} {a : Nat} (hE : d.Elem = .var elT a) :
    ∃ t, d = .mk t (.ptr (some a)) ∧ t.Elem = some elT := by
  unfold Iface.Elem at hE
  split at hE
  · rename_i t a1 
    split at hE
    · rename_i e he
      cases hE
      exact ⟨t, rfl, he⟩
    · cases hE
  · cases hE

theorem int64AssignToAux_ne_outOfFuel (arch : Arch) (v : Int) (s : Status) :
    ∀ (fuel : Nat) (d : Iface) (h : Heap), d.ptrDepth < fuel →
      int64AssignToAux arch fuel v s d h ≠ .outOfFuel := by
  intro fuel
  induction fuel with
  | zero => intro d h hd; omega
  | succ n ih =>
    intro d h hd
    by_cases hs : s = .Present
    · subst hs
      by_cases hc : d.hasIntCase = true
      · cases d with
        | nil => simp [Iface.hasIntCase] at hc
        | mk t p =>
          cases t with
          | ptr K =>
            cases K <;> simp [Iface.hasIntCase, GoType.IsBuiltinInt] at hc <;>
              simp only [int64AssignToAux, if_true] <;>
              split_ifs <;>
              first
                | exact assignDeref_ne_outOfFuel _ _ _
                | simp
          | _ => simp [Iface.hasIntCase] at hc
      · have hc1 : d.hasIntCase = false := by simpa using hc
        rw [int64AssignToAux_default _ _ _ _ _ hc1]
        unfold int64Default
        by_cases hk : d.Kind = .Ptr
        · simp only [hk, if_true]
          cases hE : d.Elem with
          | invalid => simp
          | var elT a =>
            obtain ⟨t, rfl, he⟩ := elem_var hE
            have hkt : t.Kind = .Ptr := hk
            simp only []
            split
            · rename_i hk1
              have hdepth : elT.ptrDepth < n := by
                have := ptrDepth_of_elem hkt he
                simp only [Iface.ptrDepth] at hd
                omega
              split
              · simp
              · split
                · split
                  · simp
                  · split
                    · simp
                    · exact ih _ _ hdepth
                · exact ih _ _ hdepth
            all_goals
              first
                | (split_ifs <;> first | exact setAndReturn_ne_outOfFuel _ _ _ | simp)
                | simp
        · simp [hk]
    · simp only [int64AssignToAux, hs, if_false]
      exact clearOrFail_ne_outOfFuel _ d h


theorem float64AssignToAux_ne_outOfFuel (arch : Arch) (f : Float64) (s : Status) :
    ∀ (fuel : Nat) (d : Iface) (h : Heap), d.ptrDepth < fuel →
      float64AssignToAux arch fuel f s d h ≠ .outOfFuel := by
  intro fuel
  induction fuel with
  | zero => intro d h hd; omega
  | succ n ih =>
    intro d h hd
    by_cases hs : s = .Present
    · subst hs
      by_cases hc : d.hasFloatCase = true
      · cases d with
        | nil => simp [Iface.hasFloatCase] at hc
        | mk t p =>
          cases t with
          | ptr K =>
            cases K <;> simp [Iface.hasFloatCase] at hc <;>
              simp only [float64AssignToAux, if_true] <;>
              exact assignDeref_ne_outOfFuel _ _ _
          | _ => simp [Iface.hasFloatCase] at hc
      · have hc1 : d.hasFloatCase = false := by simpa using hc
        rw [float64AssignToAux_default _ _ _ _ _ hc1]
        unfold float64Default
        by_cases hk : d.Kind = .Ptr
        · simp only [hk, if_true]
          cases hE : d.Elem with
          | invalid => simp
          | var elT a =>
            obtain ⟨t, rfl, he⟩ := elem_var hE
            have hkt : t.Kind = .Ptr := hk
            simp only []
            split
            · rename_i hk1
              have hdepth : elT.ptrDepth < n := by
                have := ptrDepth_of_elem hkt he
                simp only [Iface.ptrDepth] at hd
                omega
              split
              · simp
              · split
                · split
                  · simp
                  · split
                    · simp
                    · exact ih _ _ hdepth
                · exact ih _ _ hdepth
            all_goals
              first
                | (split_ifs <;>
                    first
                      | exact int64AssignToAux_ne_outOfFuel arch _ _ _ _ _ (Nat.lt_succ_self _)
                      | simp)
                | simp
        · simp [hk]
    · simp only [float64AssignToAux, hs, if_false]
      exact clearOrFail_ne_outOfFuel _ d h

/-- The recursion budget `int64AssignTo` and `float64AssignTo` start with is enough for
every destination: neither ever stops for lack of budget. -/
theorem assignTo_ne_outOfFuel (arch : Arch) (v : Int) (f : Float64) (s : Status) (d : Iface)
    (h : Heap) :
    int64AssignTo arch v s d h ≠ .outOfFuel ∧ float64AssignTo arch f s d h ≠ .outOfFuel :=
  ⟨int64AssignToAux_ne_outOfFuel arch v s _ d h (Nat.lt_succ_self _),
   float64AssignToAux_ne_outOfFuel arch f s _ d h (Nat.lt_succ_self _)⟩

/-! ## Messages of the typed cases -/

/-- Apart from a negative value into a `*uint16`, the message of a typed case is the
decimal value, the violated bound, and the name of the destination type. -/
theorem int64AssignTo_typed_message (arch : Arch) (pr : Printer) (K : GoType) (v : Int)
    (p : Value) (h : Heap) (hK : K.IsBuiltinInt = true) (hv : IsInt64 v)
    (hr : v < minValue arch K.Kind ∨ maxValue arch K.Kind < v)
    (hne : ¬ (K = .uint16 ∧ v < 0)) :
    ∃ e phrase, int64AssignTo arch v .Present (.mk (.ptr K) p) h = .returned (some e) h
      ∧ phrase ∈ [" is less than minimum value for ", " is greater than maximum value for ",
          " is less than zero for "]
      ∧ e.Error pr = toString v ++ (phrase ++ K.typeString) := by
  unfold IsInt64 MinInt64 MaxInt64 at hv
  cases K <;> simp [GoType.IsBuiltinInt] at hK <;> cases arch <;>
    simp [minValue, maxValue, isSignedKind, GoType.Kind, Kind.bitSize, Arch.intSize] at hr hne <;>
    simp only [int64AssignTo, int64AssignToAux, Iface.ptrDepth, GoType.ptrDepth, if_true] <;>
    simp only [minInt, maxInt, maxUint, Arch.intSize, MinInt8, MaxInt8, MinInt16,
      MaxInt16, MinInt32, MaxInt32, MinInt64, MaxInt64, MaxUint8, MaxUint16, MaxUint32,
      wrapUnsigned] <;>
    split_ifs <;>
    first
      | omega
      | exact ⟨_, " is less than minimum value for ", rfl, by simp, by rfl⟩
      | exact ⟨_, " is greater than maximum value for ", rfl, by simp, by rfl⟩
      | exact ⟨_, " is less than zero for ", rfl, by simp, by rfl⟩

/-! ## Negative zero -/

/-- `-0.0` into an `int32` destination: `int64(-0.0)` is 0 and `float64(0) == -0.0` holds,
so 0 is stored. -/
theorem float64AssignTo_negative_zero :
    float64AssignTo .bits64 ⟨0x8000000000000000⟩ .Present (.mk (.ptr .int32) (.ptr (some 0)))
        ⟨[.int 7]⟩
      = .returned none ⟨[.int 0]⟩ := by
  decide

/-! ## Claims -/

/-- C1: for each of the ten predeclared integer types `K`, every `int64` value `v` with
`min(K) ≤ v ≤ max(K)`, and every destination `*K` pointing to the variable at address `a`,
`int64AssignTo(v, Present, dst)` returns a nil error; the memory afterwards is the memory
before with that variable overwritten, and the variable holds exactly `v`. -/
theorem int64AssignTo_builtin_in_range (arch : Arch) (K : GoType) (v : Int) (a : Nat)
    (h : Heap) (hK : K.IsBuiltinInt = true) (hv : IsInt64 v) (ha : a < h.cells.length)
    (hlo : minValue arch K.Kind ≤ v) (hhi : v ≤ maxValue arch K.Kind) :
    int64AssignTo arch v .Present (.mk (.ptr K) (.ptr (some a))) h
        = .returned none ⟨h.cells.set a (.int v)⟩
      ∧ (Heap.mk (h.cells.set a (.int v))).read a = some (.int v) := by
  have _ := hv
  refine ⟨?_, by simp [Heap.read, ha]⟩
  rw [int64AssignTo_typed_ok arch K v _ h hK hlo hhi]
  simp [assignDeref, Heap.store_of_lt _ ha]

/-- Witness for C1: 300 into an `int32` destination stores 300. -/
theorem int64AssignTo_builtin_in_range_witness :
    int64AssignTo .bits64 300 .Present (.mk (.ptr .int32) (.ptr (some 0))) ⟨[.int 7]⟩
        = .returned none ⟨[.int 300]⟩
      ∧ (Heap.mk [.int 300]).read 0 = some (.int 300) :=
  int64AssignTo_builtin_in_range .bits64 .int32 300 0 ⟨[.int 7]⟩ rfl (by decide) (by decide)
    (by decide) (by decide)

/-- C2: for each of the ten predeclared integer types `K`, every `int64` value `v` with
`v < min(K)` or `v > max(K)`, and every destination `*K`, `int64AssignTo(v, Present, dst)`
returns an error of kind RangeError and the memory afterwards is the memory before: the
destination keeps its value, nothing is stored wrapped or clamped. -/
theorem int64AssignTo_builtin_out_of_range (arch : Arch) (K : GoType) (v : Int) (a : Nat)
    (h : Heap) (hK : K.IsBuiltinInt = true) (hv : IsInt64 v)
    (hr : v < minValue arch K.Kind ∨ maxValue arch K.Kind < v) :
    ∃ e, int64AssignTo arch v .Present (.mk (.ptr K) (.ptr (some a))) h
        = .returned (some e) h ∧ e.kind = some .RangeError :=
  int64AssignTo_typed_range arch K v _ h hK hv hr

/-- Witness for C2: 300 into a `uint8` destination is rejected, the destination keeps 7. -/
theorem int64AssignTo_builtin_out_of_range_witness :
    ∃ e, int64AssignTo .bits64 300 .Present (.mk (.ptr .uint8) (.ptr (some 0))) ⟨[.int 7]⟩
        = .returned (some e) ⟨[.int 7]⟩ ∧ e.kind = some .RangeError :=
  int64AssignTo_builtin_out_of_range .bits64 .uint8 300 0 ⟨[.int 7]⟩ rfl (by decide)
    (by decide)

/-- C3: the destination is a pointer (at address `a` lives its target) to a pointer to
an integer kind `T`, and `v` is an `int64` in `T`'s range. If the inner pointer is nil
(`p = none`), `int64AssignTo(v, Present, dst)` behaves exactly as allocating a zero `T`,
pointing the inner pointer to it and calling `int64AssignTo(v, Present, inner)`; it
returns a nil error, the inner pointer is then non-nil and its target holds `v`. If the
inner pointer already points to a variable at `b`, the call behaves exactly as
`int64AssignTo(v, Present, inner)`; it returns a nil error, the inner pointer still
points to `b` and the variable at `b` holds `v`. -/
theorem int64AssignTo_ptr_to_ptr (arch : Arch) (t t1 T : GoType) (v : Int) (a : Nat)
    (p : Option Nat) (h : Heap) (hk : t.Kind = .Ptr) (he : t.Elem = some t1)
    (hk1 : t1.Kind = .Ptr) (he1 : t1.Elem = some T) (hT : isIntegerKind T.Kind = true)
    (hv : IsInt64 v) (hlo : minValue arch T.Kind ≤ v) (hhi : v ≤ maxValue arch T.Kind)
    (hcell : h.read a = some (.ptr p))
    (hp : ∀ b, p = some b → b < h.cells.length ∧ b ≠ a) :
    match p with
    | none =>
      int64AssignTo arch v .Present (.mk t (.ptr (some a))) h
          = int64AssignTo arch v .Present (.mk t1 (.ptr (some h.cells.length)))
              (h.allocInto a T)
        ∧ ∃ h1, int64AssignTo arch v .Present (.mk t (.ptr (some a))) h = .returned none h1
          ∧ h1.read a = some (.ptr (some h.cells.length))
          ∧ h1.read h.cells.length = some (.int v)
    | some b =>
      int64AssignTo arch v .Present (.mk t (.ptr (some a))) h
          = int64AssignTo arch v .Present (.mk t1 (.ptr (some b))) h
        ∧ ∃ h1, int64AssignTo arch v .Present (.mk t (.ptr (some a))) h = .returned none h1
          ∧ h1.read a = some (.ptr (some b))
          ∧ h1.read b = some (.int v) := by
  have ha : a < h.cells.length := Heap.lt_of_read hcell
  cases p with
  | none =>
    have hstep := int64AssignTo_ptrPtr_nil arch t t1 T v a h hk he hk1 he1 hcell
    refine ⟨hstep, ?_⟩
    have hlen : h.cells.length < (h.allocInto a T).cells.length := by
      simp [Heap.allocInto]
    rw [hstep, int64AssignTo_ptrInt_ok arch t1 T v _ _ hk1 he1 hT hv hlo hhi hlen]
    refine ⟨_, rfl, ?_, ?_⟩
    · have hne : h.cells.length ≠ a := by omega
      rw [Heap.read_set_ne _ _ hne]
      exact Heap.read_set_self _ _ _ (by simp; omega)
    · exact Heap.read_set_self _ _ _ hlen
  | some b =>
    obtain ⟨hb, hne⟩ := hp b rfl
    have hstep := int64AssignTo_ptrPtr_some arch t t1 v a (.ptr (some b)) h hk he hk1 hcell
      (by simp)
    refine ⟨hstep, ?_⟩
    rw [hstep, int64AssignTo_ptrInt_ok arch t1 T v _ _ hk1 he1 hT hv hlo hhi hb]
    refine ⟨_, rfl, ?_, ?_⟩
    · rw [Heap.read_set_ne _ _ hne]
      exact hcell
    · exact Heap.read_set_self _ _ _ hb

/-- Witness for C3: an empty `*int8` behind a `**int8` is allocated and receives 5. -/
theorem int64AssignTo_ptr_to_ptr_witness :
    int64AssignTo .bits64 5 .Present (.mk (.ptr (.ptr .int8)) (.ptr (some 0))) ⟨[.ptr none]⟩
        = int64AssignTo .bits64 5 .Present (.mk (.ptr .int8) (.ptr (some 1)))
            ⟨[.ptr (some 1), .int 0]⟩
      ∧ ∃ h1, int64AssignTo .bits64 5 .Present (.mk (.ptr (.ptr .int8)) (.ptr (some 0)))
            ⟨[.ptr none]⟩ = .returned none h1
          ∧ h1.read 0 = some (.ptr (some 1))
          ∧ h1.read 1 = some (.int 5) :=
  int64AssignTo_ptr_to_ptr .bits64 (.ptr (.ptr .int8)) (.ptr .int8) .int8 5 0 none
    ⟨[.ptr none]⟩ rfl rfl rfl rfl rfl (by decide) (by decide) (by decide) rfl
    (fun _ hb => by cases hb)

/-- C4: for a status other than `Present` (`Null` or `Undefined`), any source value, and a
destination that is a pointer to a pointer variable (at address `a`), `int64AssignTo` and
`float64AssignTo` both return a nil error and leave that variable nil, whatever it held;
the other variables are untouched. Clearing again (with any non-present status and any
source value) returns a nil error and leaves the memory exactly as the first clear did. -/
theorem assignTo_not_present_clears (arch : Arch) (v v2 : Int) (f f2 : Float64)
    (s s2 : Status) (t t1 : GoType) (a : Nat) (h : Heap)
    (hs : s ≠ .Present) (hs2 : s2 ≠ .Present)
    (hk : t.Kind = .Ptr) (he : t.Elem = some t1) (hk1 : t1.Kind = .Ptr)
    (ha : a < h.cells.length) :
    int64AssignTo arch v s (.mk t (.ptr (some a))) h
        = .returned none ⟨h.cells.set a (.ptr none)⟩
      ∧ float64AssignTo arch f s (.mk t (.ptr (some a))) h
        = .returned none ⟨h.cells.set a (.ptr none)⟩
      ∧ (Heap.mk (h.cells.set a (.ptr none))).read a = some (.ptr none)
      ∧ int64AssignTo arch v2 s2 (.mk t (.ptr (some a))) ⟨h.cells.set a (.ptr none)⟩
        = .returned none ⟨h.cells.set a (.ptr none)⟩
      ∧ float64AssignTo arch f2 s2 (.mk t (.ptr (some a))) ⟨h.cells.set a (.ptr none)⟩
        = .returned none ⟨h.cells.set a (.ptr none)⟩ := by
  have ha2 : a < (Heap.mk (h.cells.set a (.ptr none))).cells.length := by simpa using ha
  refine ⟨?_, ?_, Heap.read_set_self _ _ _ ha, ?_, ?_⟩
  · rw [int64AssignTo_notPresent arch v s _ h hs, clearOrFail_clear _ t t1 a h hk he hk1 ha]
  · rw [float64AssignTo_notPresent arch f s _ h hs, clearOrFail_clear _ t t1 a h hk he hk1 ha]
  · rw [int64AssignTo_notPresent arch v2 s2 _ _ hs2, clearOrFail_clear _ t t1 a _ hk he hk1 ha2]
    simp
  · rw [float64AssignTo_notPresent arch f2 s2 _ _ hs2,
      clearOrFail_clear _ t t1 a _ hk he hk1 ha2]
    simp

/-- Witness for C4: `Null` into a `**int32` whose inner pointer points to variable 1. -/
theorem assignTo_not_present_clears_witness :
    int64AssignTo .bits64 9 .Null (.mk (.ptr (.ptr .int32)) (.ptr (some 0)))
          ⟨[.ptr (some 1), .int 4]⟩
        = .returned none ⟨[.ptr none, .int 4]⟩
      ∧ float64AssignTo .bits64 ⟨0⟩ .Null (.mk (.ptr (.ptr .int32)) (.ptr (some 0)))
          ⟨[.ptr (some 1), .int 4]⟩
        = .returned none ⟨[.ptr none, .int 4]⟩
      ∧ (Heap.mk [.ptr none, .int 4]).read 0 = some (.ptr none)
      ∧ int64AssignTo .bits64 3 .Undefined (.mk (.ptr (.ptr .int32)) (.ptr (some 0)))
          ⟨[.ptr none, .int 4]⟩
        = .returned none ⟨[.ptr none, .int 4]⟩
      ∧ float64AssignTo .bits64 ⟨1⟩ .Undefined (.mk (.ptr (.ptr .int32)) (.ptr (some 0)))
          ⟨[.ptr none, .int 4]⟩
        = .returned none ⟨[.ptr none, .int 4]⟩ :=
  assignTo_not_present_clears .bits64 9 3 ⟨0⟩ ⟨1⟩ .Null .Undefined (.ptr (.ptr .int32))
    (.ptr .int32) 0 ⟨[.ptr (some 1), .int 4]⟩ (by decide) (by decide) rfl rfl rfl (by decide)

/-- C5: for a status other than `Present` and any source value, `int64AssignTo` and
`float64AssignTo` clear the inner pointer and return nil when the destination is a
reference to a reference, and otherwise (a pointer to an integer, a float or any other
non-pointer kind, a nil pointer, a value that is no pointer at all, the nil interface)
return the error "cannot assign %v %v into %T", of kind NotAssignableError, leaving the
memory untouched. So either function returns a nil error if and only if the destination
is a reference to a reference. -/
theorem assignTo_not_present_fails (arch : Arch) (v : Int) (f : Float64) (s : Status)
    (d : Iface) (h : Heap) (hs : s ≠ .Present) (hlive : d.live h = true) :
    int64AssignTo arch v s d h
        = (if d.isRefToRef h = true then .returned none (h.clearInner d)
          else .returned (some (Errorf "cannot assign %v %v into %T"
            [.int64 v, .status s, .iface d])) h)
      ∧ float64AssignTo arch f s d h
        = (if d.isRefToRef h = true then .returned none (h.clearInner d)
          else .returned (some (Errorf "cannot assign %v %v into %T"
            [.float64 f, .status s, .iface d])) h)
      ∧ classify "cannot assign %v %v into %T" = some .NotAssignableError
      ∧ ((∃ h1, int64AssignTo arch v s d h = .returned none h1) ↔ d.isRefToRef h = true)
      ∧ ((∃ h1, float64AssignTo arch f s d h = .returned none h1) ↔ d.isRefToRef h = true) := by
  have hi := int64AssignTo_notPresent arch v s d h hs
  have hf := float64AssignTo_notPresent arch f s d h hs
  rw [clearOrFail_eq _ d h hlive] at hi hf
  refine ⟨hi, hf, by decide, ?_, ?_⟩
  · rw [hi]
    by_cases hr : d.isRefToRef h = true <;> simp [hr]
  · rw [hf]
    by_cases hr : d.isRefToRef h = true <;> simp [hr]

/-- Witness for C5: `Null` into a `*int8` destination fails and leaves the 7 in place. -/
theorem assignTo_not_present_fails_witness :
    int64AssignTo .bits64 1 .Null (.mk (.ptr .int8) (.ptr (some 0))) ⟨[.int 7]⟩
        = .returned (some (Errorf "cannot assign %v %v into %T"
            [.int64 1, .status .Null, .iface (.mk (.ptr .int8) (.ptr (some 0)))])) ⟨[.int 7]⟩ :=
  (assignTo_not_present_fails .bits64 1 ⟨0⟩ .Null (.mk (.ptr .int8) (.ptr (some 0)))
    ⟨[.int 7]⟩ (by decide) (by decide)).1

/-- C6: the destination is a pointer to a variable of integer kind (any width, signed or
unsigned, predeclared type or named alias). Let `i = int64(f)`. If `float64(i) == f`,
`float64AssignTo(f, Present, dst)` has exactly the result and the effect on memory of
`int64AssignTo(i, Present, dst)`; otherwise it returns the error
"cannot assign %v into %T", of kind UnsupportedTargetError, and leaves the memory as it
was. The comparison is Go's `==` on `float64`, under which `-0.0` equals `0.0`. -/
theorem float64AssignTo_integer_destination (arch : Arch) (f : Float64) (t T : GoType)
    (a : Nat) (h : Heap) (hk : t.Kind = .Ptr) (he : t.Elem = some T)
    (hT : isIntegerKind T.Kind = true) :
    float64AssignTo arch f .Present (.mk t (.ptr (some a))) h
        = (if (Float64.ofInt64 f.toInt64).eq f = true then
            int64AssignTo arch f.toInt64 .Present (.mk t (.ptr (some a))) h
          else
            .returned (some (Errorf "cannot assign %v into %T"
              [.float64 f, .iface (.mk t (.ptr (some a)))])) h)
      ∧ classify "cannot assign %v into %T" = some .UnsupportedTargetError := by
  refine ⟨?_, by decide⟩
  unfold float64AssignTo
  rw [float64AssignToAux_default _ _ _ _ _ (hasFloatCase_of_integer _ he hT),
    float64Default_integer arch _ f t T a h hk he hT]

/-- Witness for C6: 3.0 into an `int32` destination stores 3; 3.5 is rejected and the
destination keeps its 7. -/
theorem float64AssignTo_integer_destination_witness :
    float64AssignTo .bits64 ⟨0x4008000000000000⟩ .Present (.mk (.ptr .int32) (.ptr (some 0)))
          ⟨[.int 7]⟩
        = .returned none ⟨[.int 3]⟩
      ∧ float64AssignTo .bits64 ⟨0x400C000000000000⟩ .Present
          (.mk (.ptr .int32) (.ptr (some 0))) ⟨[.int 7]⟩
        = .returned (some (Errorf "cannot assign %v into %T"
            [.float64 ⟨0x400C000000000000⟩, .iface (.mk (.ptr .int32) (.ptr (some 0)))]))
            ⟨[.int 7]⟩ :=
  ⟨(float64AssignTo_integer_destination .bits64 ⟨0x4008000000000000⟩ (.ptr .int32) .int32 0
      ⟨[.int 7]⟩ rfl rfl rfl).1,
   (float64AssignTo_integer_destination .bits64 ⟨0x400C000000000000⟩ (.ptr .int32) .int32 0
      ⟨[.int 7]⟩ rfl rfl rfl).1⟩

/-- C7: for every destination that is a pointer to a variable of unsigned integer kind
(`uint`, `uint8`, `uint16`, `uint32`, `uint64` or a named alias over one of them) and
every negative `int64` value `v`, `int64AssignTo(v, Present, dst)` returns an error of
kind RangeError and leaves the memory as it was; the error is the below-zero one
("... is less than zero for ..."), never the above-maximum one. -/
theorem int64AssignTo_unsigned_negative (arch : Arch) (t T : GoType) (v : Int) (a : Nat)
    (h : Heap) (hk : t.Kind = .Ptr) (he : t.Elem = some T)
    (hu : isUnsignedKind T.Kind = true) (hv : IsInt64 v) (hneg : v < 0) :
    ∃ e, int64AssignTo arch v .Present (.mk t (.ptr (some a))) h = .returned (some e) h
      ∧ e.kind = some .RangeError ∧ e.isBelowZero = true := by
  have _ := hv
  exact int64AssignTo_ptrUint_neg arch t T v a h hk he hu hneg

/-- Witness for C7: the least `int64` into a destination of a named type over `uint8`. -/
theorem int64AssignTo_unsigned_negative_witness :
    ∃ e, int64AssignTo .bits32 (-9223372036854775808) .Present
          (.mk (.ptr (.named "main.Small" .uint8)) (.ptr (some 0))) ⟨[.int 7]⟩
        = .returned (some e) ⟨[.int 7]⟩
      ∧ e.kind = some .RangeError ∧ e.isBelowZero = true :=
  int64AssignTo_unsigned_negative .bits32 (.ptr (.named "main.Small" .uint8))
    (.named "main.Small" .uint8) (-9223372036854775808) 0 ⟨[.int 7]⟩ rfl rfl rfl (by decide)
    (by decide)

/-- C9: with `Present`, `int64AssignTo` on a destination `d` that is neither a pointer to
an integer kind nor a pointer to a pointer (a pointer to a string, bool, float or struct,
a value that is no pointer, the nil interface), and `float64AssignTo` on a destination
`d2` that is neither `*float32` nor `*float64`, nor a pointer to an integer kind, nor a
pointer to a pointer, return the error "cannot assign %v into %T", of kind
UnsupportedTargetError, and leave the memory as it was. -/
theorem assignTo_unsupported_destination (arch : Arch) (v : Int) (f : Float64)
    (d d2 : Iface) (h : Heap)
    (hd : isIntegerKind d.pointeeKind = false) (hp : d.pointeeKind ≠ .Ptr)
    (hc2 : d2.hasFloatCase = false) (hd2 : isIntegerKind d2.pointeeKind = false)
    (hp2 : d2.pointeeKind ≠ .Ptr) :
    int64AssignTo arch v .Present d h
        = .returned (some (Errorf "cannot assign %v into %T" [.int64 v, .iface d])) h
      ∧ float64AssignTo arch f .Present d2 h
        = .returned (some (Errorf "cannot assign %v into %T" [.float64 f, .iface d2])) h
      ∧ classify "cannot assign %v into %T" = some .UnsupportedTargetError := by
  have hc : d.hasIntCase = false := by
    cases hcase : d.hasIntCase
    · rfl
    · rw [hasIntCase_pointeeKind hcase] at hd
      cases hd
  refine ⟨?_, ?_, by decide⟩
  · unfold int64AssignTo
    rw [int64AssignToAux_default _ _ _ _ _ hc, int64Default_unsupported arch _ v d h hd hp]
  · unfold float64AssignTo
    rw [float64AssignToAux_default _ _ _ _ _ hc2,
      float64Default_unsupported arch _ f d2 h hd2 hp2]

/-- Witness for C9: an integer into a `*string`, a float into a pointer to a named type
over `float64`. -/
theorem assignTo_unsupported_destination_witness :
    int64AssignTo .bits64 5 .Present (.mk (.ptr .string) (.ptr (some 0))) ⟨[.string "a"]⟩
        = .returned (some (Errorf "cannot assign %v into %T"
            [.int64 5, .iface (.mk (.ptr .string) (.ptr (some 0)))])) ⟨[.string "a"]⟩
      ∧ float64AssignTo .bits64 ⟨0⟩ .Present
          (.mk (.ptr (.named "main.Ratio" .float64)) (.ptr (some 0))) ⟨[.string "a"]⟩
        = .returned (some (Errorf "cannot assign %v into %T"
            [.float64 ⟨0⟩, .iface (.mk (.ptr (.named "main.Ratio" .float64)) (.ptr (some 0)))]))
            ⟨[.string "a"]⟩
      ∧ classify "cannot assign %v into %T" = some .UnsupportedTargetError :=
  assignTo_unsupported_destination .bits64 5 ⟨0⟩ (.mk (.ptr .string) (.ptr (some 0)))
    (.mk (.ptr (.named "main.Ratio" .float64)) (.ptr (some 0))) ⟨[.string "a"]⟩
    rfl (by decide) rfl rfl (by decide)

/-- C10: for every `float64` value `f` (finite or not, within the `float32` range or
beyond it) and every destination `*float64` or `*float32` pointing to the variable at
address `a`, `float64AssignTo(f, Present, dst)` returns a nil error; the `float64`
variable then holds exactly `f`, the `float32` variable holds `float32(f)`. No value of
`f` is rejected. -/
theorem float64AssignTo_float_destination (arch : Arch) (f : Float64) (a : Nat) (h : Heap)
    (ha : a < h.cells.length) :
    float64AssignTo arch f .Present (.mk (.ptr .float64) (.ptr (some a))) h
        = .returned none ⟨h.cells.set a (.float64 f)⟩
      ∧ (Heap.mk (h.cells.set a (.float64 f))).read a = some (.float64 f)
      ∧ float64AssignTo arch f .Present (.mk (.ptr .float32) (.ptr (some a))) h
        = .returned none ⟨h.cells.set a (.float32 f.toFloat32)⟩
      ∧ (Heap.mk (h.cells.set a (.float32 f.toFloat32))).read a
        = some (.float32 f.toFloat32) := by
  refine ⟨?_, Heap.read_set_self _ _ _ ha, ?_, Heap.read_set_self _ _ _ ha⟩ <;>
    simp [float64AssignTo, float64AssignToAux, Iface.ptrDepth, GoType.ptrDepth, assignDeref,
      Heap.store_of_lt _ ha]

/-- Witness for C10: `1e40` is stored as is in a `float64` and as `+Inf` in a `float32`. -/
theorem float64AssignTo_float_destination_witness :
    float64AssignTo .bits64 ⟨0x484D6329F1C35CA5⟩ .Present
          (.mk (.ptr .float64) (.ptr (some 0))) ⟨[.float64 ⟨0⟩]⟩
        = .returned none ⟨[.float64 ⟨0x484D6329F1C35CA5⟩]⟩
      ∧ float64AssignTo .bits64 ⟨0x484D6329F1C35CA5⟩ .Present
          (.mk (.ptr .float32) (.ptr (some 0))) ⟨[.float32 ⟨0⟩]⟩
        = .returned none ⟨[.float32 ⟨0x7F800000⟩]⟩ :=
  ⟨(float64AssignTo_float_destination .bits64 ⟨0x484D6329F1C35CA5⟩ 0 ⟨[.float64 ⟨0⟩]⟩
      (by decide)).1,
   (float64AssignTo_float_destination .bits64 ⟨0x484D6329F1C35CA5⟩ 0 ⟨[.float32 ⟨0⟩]⟩
      (by decide)).2.2.1⟩

/-- C8 (failing input): `int64AssignTo(-1, Present, dst)` with `dst` a `*uint16` returns
the error whose message is "-1 is less than zero for uint32": it carries the value, and
names `uint32`, not the destination kind `uint16`. -/
theorem int64AssignTo_uint16_negative_message (arch : Arch) (pr : Printer) :
    ∃ e, int64AssignTo arch (-1) .Present (.mk (.ptr .uint16) (.ptr (some 0))) ⟨[.int 7]⟩
        = .returned (some e) ⟨[.int 7]⟩
      ∧ e.Error pr = "-1 is less than zero for uint32"
      ∧ endsWith (" for " ++ GoType.uint16.typeString) (e.Error pr) = false :=
  ⟨Errorf "%d is less than zero for uint32" [.int64 (-1)], by cases arch <;> rfl, by rfl,
    by rfl⟩

/-! ## Normalizers -/

theorem underlying_of_slice {t e : GoType} (hk : t.Kind = .Slice) (he : t.Elem = some e) :
    t.underlying = .slice e := by
  induction t with
  | named n u ih => exact ih hk he
  | slice e1 =>
    simp only [GoType.Elem, Option.some.injEq] at he
    subst he
    rfl
  | _ => simp [GoType.Kind] at hk

/-- C12: for a nil pointer of any pointer type, each of the six normalizers returns
normally with `changed = false`: the nil interface for five of them, the zero
`time.Time` for `underlyingTimeType`. None panics. -/
theorem normalizers_nil_reference (arch : Arch) (h : Heap) (t : GoType) (hk : t.Kind = .Ptr) :
    underlyingNumberType arch h (.mk t (.ptr none)) = .returned .nil false
      ∧ underlyingBoolType h (.mk t (.ptr none)) = .returned .nil false
      ∧ underlyingPtrType h (.mk t (.ptr none)) = .returned .nil false
      ∧ underlyingTimeType h (.mk t (.ptr none)) = .returned zeroTime false
      ∧ underlyingSliceType h (.mk t (.ptr none)) = .returned .nil false
      ∧ underlyingPtrSliceType h (.mk t (.ptr none)) = .returned .nil false := by
  refine ⟨?_, ?_, ?_, ?_, ?_, ?_⟩ <;>
    simp [underlyingNumberType, underlyingBoolType, underlyingPtrType, underlyingTimeType,
      underlyingSliceType, underlyingPtrSliceType, Iface.Kind, hk, Iface.IsNil]

/-- Witness for C12: a nil `*[]int32`. -/
theorem normalizers_nil_reference_witness :
    underlyingNumberType .bits64 ⟨[]⟩ (.mk (.ptr (.slice .int32)) (.ptr none))
        = .returned .nil false
      ∧ underlyingBoolType ⟨[]⟩ (.mk (.ptr (.slice .int32)) (.ptr none)) = .returned .nil false
      ∧ underlyingPtrType ⟨[]⟩ (.mk (.ptr (.slice .int32)) (.ptr none)) = .returned .nil false
      ∧ underlyingTimeType ⟨[]⟩ (.mk (.ptr (.slice .int32)) (.ptr none))
        = .returned zeroTime false
      ∧ underlyingSliceType ⟨[]⟩ (.mk (.ptr (.slice .int32)) (.ptr none))
        = .returned .nil false
      ∧ underlyingPtrSliceType ⟨[]⟩ (.mk (.ptr (.slice .int32)) (.ptr none))
        = .returned .nil false :=
  normalizers_nil_reference .bits64 ⟨[]⟩ (.ptr (.slice .int32)) rfl

/-- C13 (failing inputs): `underlyingTimeType` panics on the nil interface
(`refVal.Type()` on the zero `reflect.Value`), and `underlyingPtrSliceType` panics on a
non-nil `*int` (`reflect.TypeOf(sliceVal).Elem()` on the type `int`) and on a pointer to
an empty interface variable. -/
theorem normalizers_panic (h : Heap) :
    underlyingTimeType h .nil = .panicked
      ∧ underlyingPtrSliceType ⟨[.int 7]⟩ (.mk (.ptr .int) (.ptr (some 0))) = .panicked
      ∧ underlyingPtrSliceType ⟨[.nilIface]⟩
          (.mk (.ptr (.interface "interface {}")) (.ptr (some 0))) = .panicked :=
  ⟨rfl, by decide, by decide⟩

/-- C15 (counterexample): for a slice of a named type over `int32`,
`underlyingSliceType` returns the slice as it is, still typed by the named element
type, with `changed = false`; it does not return it typed `[]int32` with
`changed = true`. -/
theorem underlyingSliceType_alias_elements :
    underlyingSliceType ⟨[]⟩ (.mk (.slice (.named "main.MyInt32" .int32)) (.agg [0, 2, 2]))
        = .returned (.mk (.slice (.named "main.MyInt32" .int32)) (.agg [0, 2, 2])) false
      ∧ underlyingSliceType ⟨[]⟩ (.mk (.slice (.named "main.MyInt32" .int32)) (.agg [0, 2, 2]))
        ≠ .returned (.mk (.slice .int32) (.agg [0, 2, 2])) true := by
  decide

/-- C15 (amended): for every value of slice kind, with declared type `t` and element
type `E`, `underlyingSliceType` returns the same slice (same header, hence the same
length and the same elements in the same order) typed `[]E`: the element type is kept
as declared, alias or not. `changed` is true exactly when `t` is not `[]E` itself, that
is when `t` is a defined slice type. -/
theorem underlyingSliceType_slice (h : Heap) (t E : GoType) (v : Value)
    (hk : t.Kind = .Slice) (he : t.Elem = some E) :
    underlyingSliceType h (.mk t v) = .returned (.mk (.slice E) v) (decide (.slice E ≠ t)) := by
  have hu : ConvertibleTo t (.slice E) = true := by
    simp [ConvertibleTo, underlying_of_slice hk he, GoType.underlying]
  simp [underlyingSliceType, Iface.Kind, hk, he, hu, convertTo]

/-- Witness for C15 (amended): a value of the defined type `type Ids []MyInt32` comes
back typed `[]MyInt32`, with `changed = true`. -/
theorem underlyingSliceType_slice_witness :
    underlyingSliceType ⟨[]⟩
        (.mk (.named "main.Ids" (.slice (.named "main.MyInt32" .int32))) (.agg [0, 2, 2]))
      = .returned (.mk (.slice (.named "main.MyInt32" .int32)) (.agg [0, 2, 2])) true :=
  underlyingSliceType_slice ⟨[]⟩ (.named "main.Ids" (.slice (.named "main.MyInt32" .int32)))
    (.named "main.MyInt32" .int32) (.agg [0, 2, 2]) rfl rfl

/-! ## Named integer types against the predeclared ones -/

theorem isIntegerKind_of_builtin {K : GoType} (hK : K.IsBuiltinInt = true) :
    isIntegerKind K.Kind = true := by
  cases K <;> first | rfl | simp [GoType.IsBuiltinInt] at hK

/-- C16: let `K` be a predeclared integer type and `A` any type of the same kind (a named
alias over `K`), with destinations `*A` and `*K` pointing to variables at `a` and `b`,
and `v` any `int64`. `int64AssignTo(v, Present, *A)` returns nil if and only if
`int64AssignTo(v, Present, *K)` does. When `v` is in the range of the kind, both return
nil and both variables hold `v`; otherwise both return an error and neither variable is
written. -/
theorem int64AssignTo_alias_agrees (arch : Arch) (K A : GoType) (v : Int) (a b : Nat)
    (h : Heap) (hK : K.IsBuiltinInt = true) (hA : A.Kind = K.Kind) (hv : IsInt64 v)
    (ha : a < h.cells.length) (hb : b < h.cells.length) :
    ((∃ h1, int64AssignTo arch v .Present (.mk (.ptr A) (.ptr (some a))) h = .returned none h1)
        ↔ (∃ h1, int64AssignTo arch v .Present (.mk (.ptr K) (.ptr (some b))) h
            = .returned none h1))
      ∧ (if minValue arch K.Kind ≤ v ∧ v ≤ maxValue arch K.Kind then
          int64AssignTo arch v .Present (.mk (.ptr A) (.ptr (some a))) h
              = .returned none ⟨h.cells.set a (.int v)⟩
            ∧ int64AssignTo arch v .Present (.mk (.ptr K) (.ptr (some b))) h
              = .returned none ⟨h.cells.set b (.int v)⟩
        else
          (∃ e, int64AssignTo arch v .Present (.mk (.ptr A) (.ptr (some a))) h
              = .returned (some e) h)
            ∧ (∃ e, int64AssignTo arch v .Present (.mk (.ptr K) (.ptr (some b))) h
              = .returned (some e) h)) := by
  have hKi : isIntegerKind K.Kind = true := isIntegerKind_of_builtin hK
  have hAi : isIntegerKind A.Kind = true := by rw [hA]; exact hKi
  by_cases hr : minValue arch K.Kind ≤ v ∧ v ≤ maxValue arch K.Kind
  · have hAok := int64AssignTo_ptrInt_ok arch (.ptr A) A v a h rfl rfl hAi hv
      (by rw [hA]; exact hr.1) (by rw [hA]; exact hr.2) ha
    have hKok := int64AssignTo_ptrInt_ok arch (.ptr K) K v b h rfl rfl hKi hv hr.1 hr.2 hb
    rw [if_pos hr]
    exact ⟨⟨fun _ => ⟨_, hKok⟩, fun _ => ⟨_, hAok⟩⟩, hAok, hKok⟩
  · have hr1 : v < minValue arch K.Kind ∨ maxValue arch K.Kind < v := by omega
    obtain ⟨eA, hAe, _⟩ := int64AssignTo_ptrInt_range arch (.ptr A) A v a h rfl rfl hAi hv
      (by rw [hA]; exact hr1)
    obtain ⟨eK, hKe, _⟩ := int64AssignTo_ptrInt_range arch (.ptr K) K v b h rfl rfl hKi hv hr1
    rw [if_neg hr]
    refine ⟨⟨?_, ?_⟩, ⟨eA, hAe⟩, ⟨eK, hKe⟩⟩
    · rintro ⟨h1, hh⟩
      rw [hAe] at hh
      cases hh
    · rintro ⟨h1, hh⟩
      rw [hKe] at hh
      cases hh

/-- Witness for C16: 70000 into a named type over `uint16` and into `uint16`: both fail
and both variables keep their values. -/
theorem int64AssignTo_alias_agrees_witness :
    (∃ e, int64AssignTo .bits64 70000 .Present
          (.mk (.ptr (.named "main.Port" .uint16)) (.ptr (some 0))) ⟨[.int 1, .int 2]⟩
        = .returned (some e) ⟨[.int 1, .int 2]⟩)
      ∧ (∃ e, int64AssignTo .bits64 70000 .Present (.mk (.ptr .uint16) (.ptr (some 1)))
          ⟨[.int 1, .int 2]⟩
        = .returned (some e) ⟨[.int 1, .int 2]⟩) :=
  (int64AssignTo_alias_agrees .bits64 .uint16 (.named "main.Port" .uint16) 70000 0 1
    ⟨[.int 1, .int 2]⟩ rfl rfl (by decide) (by decide) (by decide)).2

/-! ## One step of the recursion -/

theorem int64AssignToAux_rec_nil (arch : Arch) (n : Nat) (v : Int) (t elT T : GoType)
    (a : Nat) (h : Heap) (hk : t.Kind = .Ptr) (he : t.Elem = some elT)
    (hk1 : elT.Kind = .Ptr) (he1 : elT.Elem = some T) (hcell : h.read a = some (.ptr none)) :
    int64AssignToAux arch (n + 1) v .Present (.mk t (.ptr (some a))) h
      = int64AssignToAux arch n v .Present (.mk elT (.ptr (some h.cells.length)))
          (h.allocInto a T) := by
  have ha : a < h.cells.length := Heap.lt_of_read hcell
  have hst : (h.alloc T.zero).2.store a (.ptr (some (h.alloc T.zero).1))
      = some (h.allocInto a T) := by
    simp only [Heap.alloc, Heap.store, Heap.allocInto, List.length_append, List.length_singleton]
    rw [if_pos (by omega)]
  rw [int64AssignToAux_default _ _ _ _ _ (hasIntCase_of_elem_ptr _ he hk1)]
  simp only [int64Default, Iface.Kind, hk, Iface.Elem, he, hk1, hcell, he1, if_true, hst]
  rfl

theorem int64AssignToAux_rec_some (arch : Arch) (n : Nat) (v : Int) (t elT : GoType)
    (a : Nat) (cur : Value) (h : Heap) (hk : t.Kind = .Ptr) (he : t.Elem = some elT)
    (hk1 : elT.Kind = .Ptr) (hcell : h.read a = some cur) (hcur : cur ≠ .ptr none) :
    int64AssignToAux arch (n + 1) v .Present (.mk t (.ptr (some a))) h
      = int64AssignToAux arch n v .Present (.mk elT cur) h := by
  rw [int64AssignToAux_default _ _ _ _ _ (hasIntCase_of_elem_ptr _ he hk1)]
  simp only [int64Default, Iface.Kind, hk, Iface.Elem, he, hk1, hcell, if_true, if_neg hcur]

theorem isLeaf_panicked (h : Heap) : Outcome.isLeaf .panicked h := Or.inl rfl

theorem isLeaf_ok (h h1 : Heap) : Outcome.isLeaf (.returned none h1) h :=
  Or.inr (Or.inl ⟨h1, rfl⟩)

theorem isLeaf_err (e : GoError) (h : Heap) : Outcome.isLeaf (.returned (some e) h) h :=
  Or.inr (Or.inr ⟨e, rfl⟩)

theorem assignDeref_isLeaf (p x : Value) (h : Heap) : (assignDeref p x h).isLeaf h := by
  unfold assignDeref
  split
  · split
    · exact isLeaf_ok _ _
    · exact isLeaf_panicked _
  · exact isLeaf_panicked _

theorem setAndReturn_isLeaf (h : Heap) (a : Nat) (x : Value) :
    (setAndReturn h a x).isLeaf h := by
  unfold setAndReturn
  split
  · exact isLeaf_ok _ _
  · exact isLeaf_panicked _

theorem clearOrFail_isLeaf (na : GoError) (d : Iface) (h : Heap) :
    (clearOrFail na d h).isLeaf h := by
  unfold clearOrFail
  split
  · split
    · split
      · exact setAndReturn_isLeaf _ _ _
      · exact isLeaf_err _ _
    · exact isLeaf_err _ _
  · exact isLeaf_err _ _

theorem int64AssignToAux_leaf (arch : Arch) (n : Nat) (v : Int) (d : Iface) (h : Heap)
    (hnr : ¬ d.recurses h) :
    (int64AssignToAux arch (n + 1) v .Present d h).isLeaf h := by
  by_cases hc : d.hasIntCase = true
  · cases d with
    | nil => simp [Iface.hasIntCase] at hc
    | mk t p =>
      cases t with
      | ptr K =>
        cases K <;> simp [Iface.hasIntCase, GoType.IsBuiltinInt] at hc <;>
          simp only [int64AssignToAux, if_true] <;>
          split_ifs <;>
          first
            | exact assignDeref_isLeaf _ _ _
            | exact isLeaf_err _ _
      | _ => simp [Iface.hasIntCase] at hc
  · have hc1 : d.hasIntCase = false := by simpa using hc
    rw [int64AssignToAux_default _ _ _ _ _ hc1]
    unfold int64Default
    by_cases hk : d.Kind = .Ptr
    · simp only [hk, if_true]
      cases hE : d.Elem with
      | invalid => exact isLeaf_err _ _
      | var elT a =>
        obtain ⟨t, rfl, he⟩ := elem_var hE
        have hkt : t.Kind = .Ptr := hk
        simp only []
        split
        · rename_i hk1
          split
          · exact isLeaf_panicked _
          · rename_i cur hcur
            exact absurd ⟨t, a, elT, cur, rfl, hkt, he, hk1, hcur⟩ hnr
        all_goals
          first
            | exact isLeaf_err _ _
            | (split_ifs <;> first | exact setAndReturn_isLeaf _ _ _ | exact isLeaf_err _ _)
    · simp only [hk, if_false]
      exact isLeaf_err _ _

theorem hasFloatCase_of_elem_ptr {t t1 : GoType} (p : Value) (he : t.Elem = some t1)
    (hk1 : t1.Kind = .Ptr) : (Iface.mk t p).hasFloatCase = false := by
  cases t <;> try rfl
  case ptr e =>
    simp only [GoType.Elem, Option.some.injEq] at he
    subst he
    cases e <;> first | rfl | simp [GoType.Kind] at hk1

theorem float64AssignToAux_rec_nil (arch : Arch) (n : Nat) (f : Float64) (t elT T : GoType)
    (a : Nat) (h : Heap) (hk : t.Kind = .Ptr) (he : t.Elem = some elT)
    (hk1 : elT.Kind = .Ptr) (he1 : elT.Elem = some T) (hcell : h.read a = some (.ptr none)) :
    float64AssignToAux arch (n + 1) f .Present (.mk t (.ptr (some a))) h
      = float64AssignToAux arch n f .Present (.mk elT (.ptr (some h.cells.length)))
          (h.allocInto a T) := by
  have ha : a < h.cells.length := Heap.lt_of_read hcell
  have hst : (h.alloc T.zero).2.store a (.ptr (some (h.alloc T.zero).1))
      = some (h.allocInto a T) := by
    simp only [Heap.alloc, Heap.store, Heap.allocInto, List.length_append, List.length_singleton]
    rw [if_pos (by omega)]
  rw [float64AssignToAux_default _ _ _ _ _ (hasFloatCase_of_elem_ptr _ he hk1)]
  simp only [float64Default, Iface.Kind, hk, Iface.Elem, he, hk1, hcell, he1, if_true, hst]
  rfl

theorem float64AssignToAux_rec_some (arch : Arch) (n : Nat) (f : Float64) (t elT : GoType)
    (a : Nat) (cur : Value) (h : Heap) (hk : t.Kind = .Ptr) (he : t.Elem = some elT)
    (hk1 : elT.Kind = .Ptr) (hcell : h.read a = some cur) (hcur : cur ≠ .ptr none) :
    float64AssignToAux arch (n + 1) f .Present (.mk t (.ptr (some a))) h
      = float64AssignToAux arch n f .Present (.mk elT cur) h := by
  rw [float64AssignToAux_default _ _ _ _ _ (hasFloatCase_of_elem_ptr _ he hk1)]
  simp only [float64Default, Iface.Kind, hk, Iface.Elem, he, hk1, hcell, if_true, if_neg hcur]

theorem not_recurses_of_elem {t elT : GoType} {a : Nat} {h : Heap} (he : t.Elem = some elT)
    (hk1 : elT.Kind ≠ .Ptr) : ¬ (Iface.mk t (.ptr (some a))).recurses h := by
  rintro ⟨t2, a2, elT2, cur, hd, _, he2, hk2, _⟩
  cases hd
  rw [he] at he2
  cases he2
  exact hk1 hk2

theorem float64AssignToAux_leaf (arch : Arch) (n : Nat) (f : Float64) (d : Iface) (h : Heap)
    (hnr : ¬ d.recurses h) :
    (float64AssignToAux arch (n + 1) f .Present d h).isLeaf h := by
  by_cases hc : d.hasFloatCase = true
  · cases d with
    | nil => simp [Iface.hasFloatCase] at hc
    | mk t p =>
      cases t with
      | ptr K =>
        cases K <;> simp [Iface.hasFloatCase] at hc <;>
          simp only [float64AssignToAux, if_true] <;>
          exact assignDeref_isLeaf _ _ _
      | _ => simp [Iface.hasFloatCase] at hc
  · have hc1 : d.hasFloatCase = false := by simpa using hc
    rw [float64AssignToAux_default _ _ _ _ _ hc1]
    unfold float64Default
    by_cases hk : d.Kind = .Ptr
    · simp only [hk, if_true]
      cases hE : d.Elem with
      | invalid => exact isLeaf_err _ _
      | var elT a =>
        obtain ⟨t, rfl, he⟩ := elem_var hE
        have hkt : t.Kind = .Ptr := hk
        simp only []
        split
        · rename_i hk1
          split
          · exact isLeaf_panicked _
          · rename_i cur hcur
            exact absurd ⟨t, a, elT, cur, rfl, hkt, he, hk1, hcur⟩ hnr
        all_goals
          first
            | exact isLeaf_err _ _
            | (split_ifs <;>
                first
                  | exact int64AssignToAux_leaf arch _ _ _ h hnr
                  | exact isLeaf_err _ _)
    · simp only [hk, if_false]
      exact isLeaf_err _ _

/-! ## What a failed call leaves behind -/

theorem isLeaf_error {o : Outcome} {h h1 : Heap} {e : GoError} (hl : o.isLeaf h)
    (ho : o = .returned (some e) h1) : h1 = h := by
  rcases hl with hp | ⟨h2, hok⟩ | ⟨e2, herr⟩
  · rw [hp] at ho
    cases ho
  · rw [hok] at ho
    cases ho
  · rw [herr] at ho
    cases ho
    rfl

/-! ## The exact memory after a failed call -/

theorem ptrDepth_of_not_ptr {t : GoType} (hk : t.Kind ≠ .Ptr) : t.ptrDepth = 0 := by
  induction t with
  | named n u ih => exact ih hk
  | ptr e => simp [GoType.Kind] at hk
  | _ => rfl

theorem firstNil_of_not_recurses {h : Heap} {d : Iface} (hnr : ¬ d.recurses h) :
    d.firstNil h = none := by
  cases d with
  | nil => rfl
  | mk t p =>
    cases hd : t.ptrDepth with
    | zero => simp [Iface.firstNil, hd, firstNil]
    | succ n =>
      simp only [Iface.firstNil, hd, firstNil]
      cases p with
      | ptr o =>
        cases o with
        | none => rfl
        | some a =>
          cases he : t.Elem with
          | none => rfl
          | some elT =>
            by_cases hk : t.Kind = .Ptr ∧ elT.Kind = .Ptr
            · cases hcell : h.read a with
              | none => simp [hk, hcell]
              | some cur => exact absurd ⟨t, a, elT, cur, rfl, hk.1, he, hk.2, hcell⟩ hnr
            · simp [hk]
      | _ => rfl

theorem firstNil_rec_nil {h : Heap} {t elT T : GoType} {a : Nat} (hk : t.Kind = .Ptr)
    (he : t.Elem = some elT) (hk1 : elT.Kind = .Ptr) (he1 : elT.Elem = some T)
    (hcell : h.read a = some (.ptr none)) :
    (Iface.mk t (.ptr (some a))).firstNil h = some (a, T) := by
  simp [Iface.firstNil, ptrDepth_of_elem hk he, firstNil, he, hk, hk1, he1, hcell]

theorem firstNil_rec_some {h : Heap} {t elT : GoType} {a : Nat} {cur : Value}
    (hk : t.Kind = .Ptr) (he : t.Elem = some elT) (hk1 : elT.Kind = .Ptr)
    (hcell : h.read a = some cur) (hcur : cur ≠ .ptr none) :
    (Iface.mk t (.ptr (some a))).firstNil h = (Iface.mk elT cur).firstNil h := by
  obtain ⟨T, he1⟩ := elem_of_kind_ptr hk1
  simp [Iface.firstNil, ptrDepth_of_elem hk he, firstNil, he, hk, hk1, he1, hcell, hcur]

theorem afterFailure_fresh {h : Heap} {elT T : GoType} {a : Nat} (hk1 : elT.Kind = .Ptr)
    (he1 : elT.Elem = some T) (hcell : h.read a = some (.ptr none)) :
    (Iface.mk elT (.ptr (some h.cells.length))).afterFailure (h.allocInto a T) .Present
      = ⟨h.cells.set a (.ptr (some h.cells.length))
          ++ freshChain T.ptrDepth T h.cells.length⟩ := by
  have ha : a < h.cells.length := Heap.lt_of_read hcell
  have hcells : (h.allocInto a T).cells
      = h.cells.set a (.ptr (some h.cells.length)) ++ [T.zero] := by
    simp only [Heap.allocInto]
    exact List.set_append_left _ _ ha
  have hlen : (h.allocInto a T).cells.length = h.cells.length + 1 := by
    simp [hcells]
  have hread : (h.allocInto a T).read h.cells.length = some T.zero := by
    simp [Heap.read, hcells]
  by_cases hkT : T.Kind = .Ptr
  · obtain ⟨T1, heT⟩ := elem_of_kind_ptr hkT
    have hz : T.zero = .ptr none := zero_of_kind_ptr hkT
    rw [hz] at hread
    have hfn := firstNil_rec_nil (h := h.allocInto a T) hk1 he1 hkT heT hread
    simp only [Iface.afterFailure, if_true, hfn, hlen, hcells]
    rw [ptrDepth_of_elem hkT heT]
    simp only [freshChain, heT, hkT, if_true, hz]
    congr 1
    rw [List.set_append_right _ _ (by simp)]
    simp
  · have hnr : ¬ (Iface.mk elT (.ptr (some h.cells.length))).recurses (h.allocInto a T) := by
      rintro ⟨t, b, e, cur, hd, _, he, hke, _⟩
      cases hd
      rw [he1] at he
      cases he
      exact hkT hke
    have hd0 : T.ptrDepth = 0 := ptrDepth_of_not_ptr hkT
    simp only [Iface.afterFailure, if_true, firstNil_of_not_recurses hnr, hd0, freshChain]
    cases hh : h.allocInto a T
    rw [hh] at hcells
    simp only at hcells
    rw [hcells]

theorem afterFailure_rec_nil {h : Heap} {t elT T : GoType} {a : Nat} (hk : t.Kind = .Ptr)
    (he : t.Elem = some elT) (hk1 : elT.Kind = .Ptr) (he1 : elT.Elem = some T)
    (hcell : h.read a = some (.ptr none)) :
    (Iface.mk elT (.ptr (some h.cells.length))).afterFailure (h.allocInto a T) .Present
      = (Iface.mk t (.ptr (some a))).afterFailure h .Present := by
  rw [afterFailure_fresh hk1 he1 hcell]
  simp only [Iface.afterFailure, if_true, firstNil_rec_nil hk he hk1 he1 hcell]

theorem afterFailure_rec_some {h : Heap} {t elT : GoType} {a : Nat} {cur : Value}
    (hk : t.Kind = .Ptr) (he : t.Elem = some elT) (hk1 : elT.Kind = .Ptr)
    (hcell : h.read a = some cur) (hcur : cur ≠ .ptr none) :
    (Iface.mk elT cur).afterFailure h .Present
      = (Iface.mk t (.ptr (some a))).afterFailure h .Present := by
  simp only [Iface.afterFailure, if_true, firstNil_rec_some hk he hk1 hcell hcur]

theorem afterFailure_leaf {h : Heap} {s : Status} {d : Iface}
    (hl : s ≠ .Present ∨ ¬ d.recurses h) : d.afterFailure h s = h := by
  by_cases hs : s = .Present
  · rcases hl with hl | hl
    · exact absurd hs hl
    · simp [Iface.afterFailure, hs, firstNil_of_not_recurses hl]
  · simp [Iface.afterFailure, hs]

theorem int64AssignToAux_error_exact (arch : Arch) (v : Int) (s : Status) :
    ∀ (n : Nat) (d : Iface) (h : Heap) (e : GoError) (h1 : Heap),
      int64AssignToAux arch n v s d h = .returned (some e) h1 → h1 = d.afterFailure h s := by
  intro n
  induction n with
  | zero =>
    intro d h e h1 hr
    simp [int64AssignToAux] at hr
  | succ n ih =>
    intro d h e h1 hr
    by_cases hs : s = .Present
    · subst hs
      by_cases hrec : d.recurses h
      · obtain ⟨t, a, elT, cur, rfl, hk, he, hk1, hcell⟩ := hrec
        by_cases hcur : cur = .ptr none
        · subst hcur
          obtain ⟨T, he1⟩ := elem_of_kind_ptr hk1
          rw [int64AssignToAux_rec_nil arch n v t elT T a h hk he hk1 he1 hcell] at hr
          rw [ih _ _ _ _ hr]
          exact afterFailure_rec_nil hk he hk1 he1 hcell
        · rw [int64AssignToAux_rec_some arch n v t elT a cur h hk he hk1 hcell hcur] at hr
          rw [ih _ _ _ _ hr]
          exact afterFailure_rec_some hk he hk1 hcell hcur
      · rw [isLeaf_error (int64AssignToAux_leaf arch n v d h hrec) hr]
        exact (afterFailure_leaf (Or.inr hrec)).symm
    · simp only [int64AssignToAux, hs, if_false] at hr
      rw [isLeaf_error (clearOrFail_isLeaf _ d h) hr]
      exact (afterFailure_leaf (Or.inl hs)).symm

theorem float64AssignToAux_error_exact (arch : Arch) (f : Float64) (s : Status) :
    ∀ (n : Nat) (d : Iface) (h : Heap) (e : GoError) (h1 : Heap),
      float64AssignToAux arch n f s d h = .returned (some e) h1 → h1 = d.afterFailure h s := by
  intro n
  induction n with
  | zero =>
    intro d h e h1 hr
    simp [float64AssignToAux] at hr
  | succ n ih =>
    intro d h e h1 hr
    by_cases hs : s = .Present
    · subst hs
      by_cases hrec : d.recurses h
      · obtain ⟨t, a, elT, cur, rfl, hk, he, hk1, hcell⟩ := hrec
        by_cases hcur : cur = .ptr none
        · subst hcur
          obtain ⟨T, he1⟩ := elem_of_kind_ptr hk1
          rw [float64AssignToAux_rec_nil arch n f t elT T a h hk he hk1 he1 hcell] at hr
          rw [ih _ _ _ _ hr]
          exact afterFailure_rec_nil hk he hk1 he1 hcell
        · rw [float64AssignToAux_rec_some arch n f t elT a cur h hk he hk1 hcell hcur] at hr
          rw [ih _ _ _ _ hr]
          exact afterFailure_rec_some hk he hk1 hcell hcur
      · rw [isLeaf_error (float64AssignToAux_leaf arch n f d h hrec) hr]
        exact (afterFailure_leaf (Or.inr hrec)).symm
    · simp only [float64AssignToAux, hs, if_false] at hr
      rw [isLeaf_error (clearOrFail_isLeaf _ d h) hr]
      exact (afterFailure_leaf (Or.inl hs)).symm

theorem firstNil_read {h : Heap} :
    ∀ (n : Nat) (t : GoType) (p : Value) (a : Nat) (T : GoType),
      firstNil h n t p = some (a, T) → h.read a = some (.ptr none) := by
  intro n
  induction n with
  | zero =>
    intro t p a T hf
    simp [firstNil] at hf
  | succ n ih =>
    intro t p a T hf
    cases p with
    | ptr o =>
      cases o with
      | none => simp [firstNil] at hf
      | some b =>
        cases he : t.Elem with
        | none => simp [firstNil, he] at hf
        | some elT =>
          by_cases hk : t.Kind = .Ptr ∧ elT.Kind = .Ptr
          · cases hcell : h.read b with
            | none => simp [firstNil, he, hk, hcell] at hf
            | some cur =>
              cases he1 : elT.Elem with
              | none => simp [firstNil, he, hk, hcell, he1] at hf
              | some T1 =>
                by_cases hcur : cur = .ptr none
                · simp [firstNil, he, hk, hcell, he1, hcur] at hf
                  rw [← hf.1, hcell, hcur]
                · simp [firstNil, he, hk, hcell, he1, hcur] at hf
                  exact ih _ _ _ _ hf
          · simp [firstNil, he, hk] at hf
    | _ => simp [firstNil] at hf

theorem afterFailure_some {h : Heap} {d : Iface} {a : Nat} {T : GoType}
    (hfn : d.firstNil h = some (a, T)) :
    d.pointeeKind = .Ptr ∧ h.read a = some (.ptr none)
      ∧ (d.afterFailure h .Present).cells
          = h.cells.set a (.ptr (some h.cells.length))
              ++ freshChain T.ptrDepth T h.cells.length
      ∧ (d.afterFailure h .Present).read a = some (.ptr (some h.cells.length))
      ∧ h.cells.length < (d.afterFailure h .Present).cells.length
      ∧ ∀ c, c < h.cells.length → c ≠ a →
          (d.afterFailure h .Present).read c = h.read c := by
  have hrd : h.read a = some (.ptr none) := by
    cases d with
    | nil => simp [Iface.firstNil] at hfn
    | mk t p => exact firstNil_read _ _ _ _ _ hfn
  have ha : a < h.cells.length := Heap.lt_of_read hrd
  have hpk : d.pointeeKind = .Ptr := by
    by_cases hrec : d.recurses h
    · obtain ⟨t, b, elT, cur, rfl, hk, he, hk1, _⟩ := hrec
      rw [pointeeKind_of_elem _ hk he]
      exact hk1
    · rw [firstNil_of_not_recurses hrec] at hfn
      cases hfn
  have hcells : (d.afterFailure h .Present).cells
      = h.cells.set a (.ptr (some h.cells.length))
          ++ freshChain T.ptrDepth T h.cells.length := by
    simp [Iface.afterFailure, hfn]
  have hpos : 0 < (freshChain T.ptrDepth T h.cells.length).length := by
    cases T.ptrDepth with
    | zero => simp [freshChain]
    | succ k =>
      simp only [freshChain]
      split
      · split <;> simp
      · simp
  refine ⟨hpk, hrd, hcells, ?_, ?_, ?_⟩
  · simp only [Heap.read, hcells]
    rw [List.getElem?_append_left (by simpa using ha)]
    simp [ha]
  · rw [hcells]
    simp only [List.length_append, List.length_set]
    omega
  · intro c hc hca
    simp only [Heap.read, hcells]
    rw [List.getElem?_append_left (by simpa using hc)]
    rw [List.getElem?_set_ne (fun e => hca e.symm)]

/-- C17 (counterexample): 300 with `Present` into a `**int8` whose inner pointer is nil
returns the range error of the `*int8` case, and the inner pointer, nil before the call,
now points to a new variable holding 0: the memory is not what it was. -/
theorem int64AssignTo_failure_allocates :
    int64AssignTo .bits64 300 .Present (.mk (.ptr (.ptr .int8)) (.ptr (some 0))) ⟨[.ptr none]⟩
        = .returned (some (Errorf "%d is greater than maximum value for int8" [.int64 300]))
            ⟨[.ptr (some 1), .int 0]⟩
      ∧ (Heap.mk [.ptr (some 1), .int 0]).read 0 ≠ (Heap.mk [.ptr none]).read 0 := by
  decide

/-- C17 (amended): whenever `int64AssignTo` or `float64AssignTo` returns an error, the
memory afterwards is exactly `afterFailure` of the memory before. It is identical to the
memory before when the status is not `Present` or the descent through the pointer levels
of the destination meets no nil inner pointer (every inner pointer is allocated, or the
destination is no pointer to a pointer). Otherwise, with `a` the first nil inner pointer
of the descent and `T` the type it points to: the destination is a pointer to a pointer,
the variable at `a` was nil and now points to the first new address, the new variables
are exactly the chain allocated below it (each a pointer to the next, the last holding
the zero value of its type), and every other variable that existed before the call holds
what it held. -/
theorem assignTo_error_memory (arch : Arch) (v : Int) (f : Float64) (s s2 : Status)
    (d d2 : Iface) (h h1 g g1 : Heap) (e e2 : GoError)
    (hi : int64AssignTo arch v s d h = .returned (some e) h1)
    (hf : float64AssignTo arch f s2 d2 g = .returned (some e2) g1) :
    (h1 = d.afterFailure h s ∧ g1 = d2.afterFailure g s2)
      ∧ ((s ≠ .Present ∨ d.firstNil h = none) → h1 = h)
      ∧ ((s2 ≠ .Present ∨ d2.firstNil g = none) → g1 = g)
      ∧ (∀ a T, s = .Present → d.firstNil h = some (a, T) →
          d.pointeeKind = .Ptr ∧ h.read a = some (.ptr none)
            ∧ h1.cells = h.cells.set a (.ptr (some h.cells.length))
                ++ freshChain T.ptrDepth T h.cells.length
            ∧ h1.read a = some (.ptr (some h.cells.length))
            ∧ h.cells.length < h1.cells.length
            ∧ ∀ c, c < h.cells.length → c ≠ a → h1.read c = h.read c)
      ∧ (∀ a T, s2 = .Present → d2.firstNil g = some (a, T) →
          d2.pointeeKind = .Ptr ∧ g.read a = some (.ptr none)
            ∧ g1.cells = g.cells.set a (.ptr (some g.cells.length))
                ++ freshChain T.ptrDepth T g.cells.length
            ∧ g1.read a = some (.ptr (some g.cells.length))
            ∧ g.cells.length < g1.cells.length
            ∧ ∀ c, c < g.cells.length → c ≠ a → g1.read c = g.read c) := by
  have hh := int64AssignToAux_error_exact arch v s _ d h e h1 hi
  have hg := float64AssignToAux_error_exact arch f s2 _ d2 g e2 g1 hf
  subst hh hg
  refine ⟨⟨rfl, rfl⟩, ?_, ?_, ?_, ?_⟩
  · rintro (hs | hn)
    · simp [Iface.afterFailure, hs]
    · simp [Iface.afterFailure, hn]
  · rintro (hs | hn)
    · simp [Iface.afterFailure, hs]
    · simp [Iface.afterFailure, hn]
  · intro a T hs hfn
    subst hs
    exact afterFailure_some hfn
  · intro a T hs hfn
    subst hs
    exact afterFailure_some hfn

/-- Witness for C17 (amended): 300 into a `**int8` with a nil inner pointer changes that
pointer and adds one variable; 3.5 into a `**int32` whose inner pointer is allocated
fails and leaves the memory as it was. -/
theorem assignTo_error_memory_witness :
    ((Heap.mk [.ptr (some 1), .int 0]).cells
        = (Heap.mk [.ptr none]).cells.set 0 (.ptr (some 1)) ++ freshChain 0 .int8 1)
      ∧ (Heap.mk [.ptr (some 1), .int 7]) = ⟨[.ptr (some 1), .int 7]⟩
      ∧ (Iface.mk (.ptr (.ptr .int32)) (.ptr (some 0))).firstNil ⟨[.ptr (some 1), .int 7]⟩
          = none :=
  have hw := assignTo_error_memory .bits64 300 ⟨0x400C000000000000⟩ .Present .Present
    (.mk (.ptr (.ptr .int8)) (.ptr (some 0))) (.mk (.ptr (.ptr .int32)) (.ptr (some 0)))
    ⟨[.ptr none]⟩ ⟨[.ptr (some 1), .int 0]⟩ ⟨[.ptr (some 1), .int 7]⟩
    ⟨[.ptr (some 1), .int 7]⟩
    (Errorf "%d is greater than maximum value for int8" [.int64 300])
    (Errorf "cannot assign %v into %T"
      [.float64 ⟨0x400C000000000000⟩, .iface (.mk (.ptr .int32) (.ptr (some 1)))])
    (by decide) (by decide)
  ⟨(hw.2.2.2.1 0 .int8 rfl (by decide)).2.2.1, hw.2.2.1 (Or.inr (by decide)), by decide⟩

/-! ## Number of recursive calls -/

theorem ptrDepth_pos_iff (t : GoType) : 0 < t.ptrDepth ↔ t.Kind = .Ptr := by
  induction t with
  | named n u ih => exact ih
  | ptr e => simp [GoType.ptrDepth, GoType.Kind]
  | _ => simp [GoType.ptrDepth, GoType.Kind]

theorem isLeaf_ne_outOfFuel {o : Outcome} {h : Heap} (hl : o.isLeaf h) : o ≠ .outOfFuel := by
  rcases hl with hp | ⟨h2, hok⟩ | ⟨e2, herr⟩
  · rw [hp]; simp
  · rw [hok]; simp
  · rw [herr]; simp

theorem liveChain_fresh (h : Heap) (a : Nat) (elT T : GoType) (ha : a < h.cells.length)
    (hk1 : elT.Kind = .Ptr) (he1 : elT.Elem = some T) :
    liveChain (h.allocInto a T) elT.ptrDepth elT (.ptr (some h.cells.length)) = true := by
  have hd := ptrDepth_of_elem hk1 he1
  have hread : (h.allocInto a T).read h.cells.length = some T.zero := by
    have hne : a ≠ h.cells.length := by omega
    unfold Heap.allocInto
    rw [Heap.read_set_ne _ _ hne]
    simp [Heap.read]
  rw [hd]
  simp only [liveChain, he1, hread]
  split
  · rename_i hkT
    simp [zero_of_kind_ptr hkT]
  · rfl

theorem recurses_of_liveChain {h : Heap} {t : GoType} {p : Value}
    (hl : liveChain h t.ptrDepth t p = true) (hd : 2 ≤ t.ptrDepth) :
    (Iface.mk t p).recurses h := by
  have hk : t.Kind = .Ptr := (ptrDepth_pos_iff t).1 (by omega)
  obtain ⟨elT, he⟩ := elem_of_kind_ptr hk
  have hde := ptrDepth_of_elem hk he
  have hk1 : elT.Kind = .Ptr := (ptrDepth_pos_iff elT).1 (by omega)
  rw [hde] at hl
  cases p with
  | ptr o =>
    cases o with
    | none => simp [liveChain] at hl
    | some a =>
      cases hcell : h.read a with
      | none => simp [liveChain, he, hcell] at hl
      | some cur => exact ⟨t, a, elT, cur, rfl, hk, he, hk1, hcell⟩
  | _ => simp [liveChain] at hl

theorem liveChain_inner {h : Heap} {t elT : GoType} {a : Nat} {cur : Value}
    (hl : liveChain h t.ptrDepth t (.ptr (some a)) = true) (hk : t.Kind = .Ptr)
    (he : t.Elem = some elT) (hk1 : elT.Kind = .Ptr) (hcell : h.read a = some cur)
    (hcur : cur ≠ .ptr none) : liveChain h elT.ptrDepth elT cur = true := by
  rw [ptrDepth_of_elem hk he] at hl
  simpa [liveChain, he, hcell, hk1, hcur] using hl

theorem int64AssignToAux_outOfFuel_iff (arch : Arch) (v : Int) :
    ∀ (k : Nat) (d : Iface) (h : Heap), d.isLive h = true →
      (int64AssignToAux arch k v .Present d h = .outOfFuel ↔ k ≤ d.ptrDepth - 1) := by
  intro k
  induction k with
  | zero =>
    intro d h _
    simp [int64AssignToAux]
  | succ k ih =>
    intro d h hl
    by_cases hrec : d.recurses h
    · obtain ⟨t, a, elT, cur, rfl, hk, he, hk1, hcell⟩ := hrec
      have hde := ptrDepth_of_elem hk he
      have hpos : 0 < elT.ptrDepth := (ptrDepth_pos_iff elT).2 hk1
      have hgoal : ∀ n : Nat, (k ≤ elT.ptrDepth - 1) ↔ (k + 1 ≤ t.ptrDepth - 1) := by
        intro _
        omega
      simp only [Iface.ptrDepth]
      rw [← hgoal 0]
      by_cases hcur : cur = .ptr none
      · subst hcur
        obtain ⟨T, he1⟩ := elem_of_kind_ptr hk1
        rw [int64AssignToAux_rec_nil arch k v t elT T a h hk he hk1 he1 hcell]
        exact ih _ _ (liveChain_fresh h a elT T (Heap.lt_of_read hcell) hk1 he1)
      · rw [int64AssignToAux_rec_some arch k v t elT a cur h hk he hk1 hcell hcur]
        exact ih _ _ (liveChain_inner hl hk he hk1 hcell hcur)
    · have hne := isLeaf_ne_outOfFuel (int64AssignToAux_leaf arch k v d h hrec)
      have hdepth : d.ptrDepth ≤ 1 := by
        cases d with
        | nil => simp [Iface.ptrDepth]
        | mk t p =>
          by_contra hgt
          exact hrec (recurses_of_liveChain hl (by simp only [Iface.ptrDepth] at hgt; omega))
      constructor
      · intro ho
        exact absurd ho hne
      · intro hle
        omega

theorem float64AssignToAux_outOfFuel_iff (arch : Arch) (f : Float64) :
    ∀ (k : Nat) (d : Iface) (h : Heap), d.isLive h = true →
      (float64AssignToAux arch k f .Present d h = .outOfFuel ↔ k ≤ d.ptrDepth - 1) := by
  intro k
  induction k with
  | zero =>
    intro d h _
    simp [float64AssignToAux]
  | succ k ih =>
    intro d h hl
    by_cases hrec : d.recurses h
    · obtain ⟨t, a, elT, cur, rfl, hk, he, hk1, hcell⟩ := hrec
      have hde := ptrDepth_of_elem hk he
      have hpos : 0 < elT.ptrDepth := (ptrDepth_pos_iff elT).2 hk1
      have hgoal : ∀ n : Nat, (k ≤ elT.ptrDepth - 1) ↔ (k + 1 ≤ t.ptrDepth - 1) := by
        intro _
        omega
      simp only [Iface.ptrDepth]
      rw [← hgoal 0]
      by_cases hcur : cur = .ptr none
      · subst hcur
        obtain ⟨T, he1⟩ := elem_of_kind_ptr hk1
        rw [float64AssignToAux_rec_nil arch k f t elT T a h hk he hk1 he1 hcell]
        exact ih _ _ (liveChain_fresh h a elT T (Heap.lt_of_read hcell) hk1 he1)
      · rw [float64AssignToAux_rec_some arch k f t elT a cur h hk he hk1 hcell hcur]
        exact ih _ _ (liveChain_inner hl hk he hk1 hcell hcur)
    · have hne := isLeaf_ne_outOfFuel (float64AssignToAux_leaf arch k f d h hrec)
      have hdepth : d.ptrDepth ≤ 1 := by
        cases d with
        | nil => simp [Iface.ptrDepth]
        | mk t p =>
          by_contra hgt
          exact hrec (recurses_of_liveChain hl (by simp only [Iface.ptrDepth] at hgt; omega))
      constructor
      · intro ho
        exact absurd ho hne
      · intro hle
        omega

theorem notPresent_outOfFuel_iff (arch : Arch) (v : Int) (f : Float64) (s : Status)
    (d : Iface) (h : Heap) (hs : s ≠ .Present) (k : Nat) :
    (int64AssignToAux arch k v s d h = .outOfFuel ↔ k = 0)
      ∧ (float64AssignToAux arch k f s d h = .outOfFuel ↔ k = 0) := by
  cases k with
  | zero => simp [int64AssignToAux, float64AssignToAux]
  | succ k =>
    have e1 : int64AssignToAux arch (k + 1) v s d h
        = clearOrFail (Errorf "cannot assign %v %v into %T"
            [.int64 v, .status s, .iface d]) d h := by
      simp only [int64AssignToAux, hs, if_false, clearOrFail]
    have e2 : float64AssignToAux arch (k + 1) f s d h
        = clearOrFail (Errorf "cannot assign %v %v into %T"
            [.float64 f, .status s, .iface d]) d h := by
      simp only [float64AssignToAux, hs, if_false, clearOrFail]
    rw [e1, e2]
    have h1 := isLeaf_ne_outOfFuel (clearOrFail_isLeaf
      (Errorf "cannot assign %v %v into %T" [.int64 v, .status s, .iface d]) d h)
    have h2 := isLeaf_ne_outOfFuel (clearOrFail_isLeaf
      (Errorf "cannot assign %v %v into %T" [.float64 f, .status s, .iface d]) d h)
    simp [h1, h2]

/-- C18: let `d` be a live destination with `n = d.ptrDepth` pointer levels. Both
functions are total and never run out of their recursion budget. A call started with a
budget of `k` hands `k - 1` to its recursive call and a call with no budget returns
`outOfFuel`, so a call returns `outOfFuel` exactly when it makes `k` or more nested
recursive calls. With `Present` that happens exactly for `k ≤ n - 1`: the call recurses
`n - 1` times, once per pointer level beyond the first, and no more. With any other
status it happens only for `k = 0`: the call never recurses. The destination of a
recursive call has the element type of the pointer type, one pointer level less. -/
theorem assignTo_recursion_count (arch : Arch) (v : Int) (f : Float64) (s : Status)
    (d : Iface) (h : Heap) (hl : d.isLive h = true) (hs : s ≠ .Present) :
    int64AssignTo arch v .Present d h ≠ .outOfFuel
      ∧ float64AssignTo arch f .Present d h ≠ .outOfFuel
      ∧ int64AssignTo arch v s d h ≠ .outOfFuel
      ∧ float64AssignTo arch f s d h ≠ .outOfFuel
      ∧ (∀ k, int64AssignToAux arch k v .Present d h = .outOfFuel ↔ k ≤ d.ptrDepth - 1)
      ∧ (∀ k, float64AssignToAux arch k f .Present d h = .outOfFuel ↔ k ≤ d.ptrDepth - 1)
      ∧ (∀ k, int64AssignToAux arch k v s d h = .outOfFuel ↔ k = 0)
      ∧ (∀ k, float64AssignToAux arch k f s d h = .outOfFuel ↔ k = 0)
      ∧ (∀ t p t1, d = .mk t p → t.Kind = .Ptr → t.Elem = some t1 →
          t1.ptrDepth + 1 = t.ptrDepth) :=
  ⟨int64AssignToAux_ne_outOfFuel arch v .Present _ d h (Nat.lt_succ_self _),
   float64AssignToAux_ne_outOfFuel arch f .Present _ d h (Nat.lt_succ_self _),
   int64AssignToAux_ne_outOfFuel arch v s _ d h (Nat.lt_succ_self _),
   float64AssignToAux_ne_outOfFuel arch f s _ d h (Nat.lt_succ_self _),
   fun k => int64AssignToAux_outOfFuel_iff arch v k d h hl,
   fun k => float64AssignToAux_outOfFuel_iff arch f k d h hl,
   fun k => (notPresent_outOfFuel_iff arch v f s d h hs k).1,
   fun k => (notPresent_outOfFuel_iff arch v f s d h hs k).2,
   fun _ _ _ hd hk he => by
     cases hd
     exact (ptrDepth_of_elem hk he).symm⟩

/-- Witness for C18: a `***int8` whose first inner pointer is nil. A budget of 2 is
exhausted and a budget of 3 is not: the call recurses exactly twice. -/
theorem assignTo_recursion_count_witness :
    int64AssignToAux .bits64 2 5 .Present (.mk (.ptr (.ptr (.ptr .int8))) (.ptr (some 0)))
        ⟨[.ptr none]⟩ = .outOfFuel
      ∧ int64AssignToAux .bits64 3 5 .Present (.mk (.ptr (.ptr (.ptr .int8))) (.ptr (some 0)))
        ⟨[.ptr none]⟩ ≠ .outOfFuel
      ∧ int64AssignToAux .bits64 1 5 .Null (.mk (.ptr (.ptr (.ptr .int8))) (.ptr (some 0)))
        ⟨[.ptr none]⟩ ≠ .outOfFuel :=
  have w := assignTo_recursion_count .bits64 5 ⟨0⟩ .Null
    (.mk (.ptr (.ptr (.ptr .int8))) (.ptr (some 0))) ⟨[.ptr none]⟩ (by decide) (by decide)
  ⟨(w.2.2.2.2.1 2).2 (by decide),
   fun ho => absurd ((w.2.2.2.2.1 3).1 ho) (by decide),
   fun ho => absurd ((w.2.2.2.2.2.2.1 1).1 ho) (by decide)⟩

/-! ## Widening and narrowing `float32` -/

theorem topBit_eq : ∀ (fuel k n : Nat), k < fuel → 2 ^ k ≤ n → n < 2 ^ (k + 1) →
    topBit fuel n = k := by
  intro fuel
  induction fuel with
  | zero => intro k n hk; omega
  | succ fuel ih =>
    intro k n hk h1 h2
    unfold topBit
    cases k with
    | zero =>
      have : ¬ 2 ≤ n := by simp at h2; omega
      simp [this]
    | succ k =>
      have h2n : 2 ≤ n := by
        have : 2 ^ (k + 1) = 2 * 2 ^ k := by ring
        have : 0 < 2 ^ k := Nat.two_pow_pos k
        omega
      have e1 : 2 ^ (k + 1) = 2 * 2 ^ k := by ring
      have e2 : 2 ^ (k + 1 + 1) = 2 * (2 * 2 ^ k) := by ring
      rw [if_pos h2n, ih k (n / 2) (by omega) (by omega) (by omega)]


theorem Float64.fields (S E M : Nat) (hS : S ≤ 1) (hE : E ≤ 2047) (hM : M < 2 ^ 52) :
    (Float64.mk (S * 2 ^ 63 + E * 2 ^ 52 + M)).sign = S
      ∧ (Float64.mk (S * 2 ^ 63 + E * 2 ^ 52 + M)).expField = E
      ∧ (Float64.mk (S * 2 ^ 63 + E * 2 ^ 52 + M)).frac = M := by
  simp only [Float64.sign, Float64.expField, Float64.frac]
  norm_num at hM ⊢
  omega


theorem toFloat32_finite (F : Float64) (sh bexp : Nat) (hE : F.expField ≠ 2047)
    (hm : F.mant ≠ 0)
    (hlt : ¬ max ((topBit 64 F.mant : Int) + F.exp2 - 23) (-149) ≤ F.exp2)
    (hsh : (max ((topBit 64 F.mant : Int) + F.exp2 - 23) (-149) - F.exp2).toNat = sh)
    (hb : (max ((topBit 64 F.mant : Int) + F.exp2 + 126) 0).toNat = bexp) :
    F.toFloat32 =
      if bexp * 2 ^ 23 + roundShift F.mant sh ≥ 255 * 2 ^ 23 then
        ⟨F.sign * 2 ^ 31 + 255 * 2 ^ 23⟩
      else ⟨F.sign * 2 ^ 31 + (bexp * 2 ^ 23 + roundShift F.mant sh)⟩ := by
  subst hsh hb
  simp only [Float64.toFloat32, if_neg hE, if_neg hm, if_neg hlt]

theorem roundShift_exact (q s : Nat) : roundShift (q * 2 ^ s) s = q := by
  have hpos : 0 < 2 ^ s := Nat.two_pow_pos s
  have h1 : (q * 2 ^ s) >>> s = q := by
    rw [Nat.shiftRight_eq_div_pow, Nat.mul_div_cancel _ hpos]
  simp only [roundShift, h1, Nat.shiftLeft_eq, Nat.sub_self, Nat.mul_zero, one_mul]
  have h2 : ¬ (0 > 2 ^ s ∨ 0 = 2 ^ s ∧ q % 2 = 1) := by omega
  rw [if_neg h2]

/-- Narrowing a `float64` whose value is a normal `float32` number is exact. -/
theorem toFloat32_normal (S e m : Nat) (hS : S ≤ 1) (he1 : 1 ≤ e) (he2 : e ≤ 254)
    (hm : m < 2 ^ 23) :
    (Float64.mk (S * 2 ^ 63 + (e + 896) * 2 ^ 52 + m * 2 ^ 29)).toFloat32
      = ⟨S * 2 ^ 31 + e * 2 ^ 23 + m⟩ := by
  have hM : m * 2 ^ 29 < 2 ^ 52 := by norm_num at hm ⊢; omega
  obtain ⟨h1, h2, h3⟩ := Float64.fields S (e + 896) (m * 2 ^ 29) hS (by omega) hM
  have hmant : (Float64.mk (S * 2 ^ 63 + (e + 896) * 2 ^ 52 + m * 2 ^ 29)).mant
      = (2 ^ 23 + m) * 2 ^ 29 := by
    simp only [Float64.mant, h2, h3]
    rw [if_neg (by omega)]
    ring
  have hexp : (Float64.mk (S * 2 ^ 63 + (e + 896) * 2 ^ 52 + m * 2 ^ 29)).exp2
      = (e : Int) - 179 := by
    simp only [Float64.exp2, h2]
    rw [if_neg (by omega)]
    push_cast
    ring
  have htop : topBit 64 ((2 ^ 23 + m) * 2 ^ 29) = 52 :=
    topBit_eq 64 52 _ (by decide) (by norm_num; omega) (by norm_num at hm ⊢; omega)
  generalize hF : Float64.mk (S * 2 ^ 63 + (e + 896) * 2 ^ 52 + m * 2 ^ 29) = F at *
  have a1 : F.expField ≠ 2047 := by rw [h2]; omega
  have a2 : F.mant ≠ 0 := by rw [hmant]; norm_num
  have a3 : ¬ max ((topBit 64 F.mant : Int) + F.exp2 - 23) (-149) ≤ F.exp2 := by
    rw [hmant, hexp, htop]; omega
  have a4 : (max ((topBit 64 F.mant : Int) + F.exp2 - 23) (-149) - F.exp2).toNat = 29 := by
    rw [hmant, hexp, htop]; omega
  have a5 : (max ((topBit 64 F.mant : Int) + F.exp2 + 126) 0).toNat = e - 1 := by
    rw [hmant, hexp, htop]; omega
  rw [toFloat32_finite F 29 (e - 1) a1 a2 a3 a4 a5, hmant, roundShift_exact, h1]
  have hlt : ¬ ((e - 1) * 2 ^ 23 + (2 ^ 23 + m) ≥ 255 * 2 ^ 23) := by
    norm_num at hm ⊢
    omega
  rw [if_neg hlt]
  refine congrArg Float32.mk ?_
  norm_num
  omega
/-- Narrowing a `float64` whose value is a subnormal `float32` number is exact. -/
theorem toFloat32_subnormal (S k m : Nat) (hS : S ≤ 1) (hk : k ≤ 22) (h1 : 2 ^ k ≤ m)
    (h2 : m < 2 ^ (k + 1)) :
    (Float64.mk (S * 2 ^ 63 + (873 + k) * 2 ^ 52 + m * 2 ^ (52 - k))).toFloat32
      = ⟨S * 2 ^ 31 + m⟩ := by
  have hm23 : m < 2 ^ 23 :=
    Nat.lt_of_lt_of_le h2 (Nat.pow_le_pow_right (by decide) (by omega))
  have hp : 2 ^ k * 2 ^ (52 - k) = 2 ^ 52 := by
    rw [← pow_add]
    congr 1
    omega
  have hx1 : 2 ^ 52 ≤ m * 2 ^ (52 - k) := by
    rw [← hp]
    exact Nat.mul_le_mul_right _ h1
  have hx2 : m * 2 ^ (52 - k) < 2 ^ 53 := by
    have hp2 : 2 ^ (k + 1) * 2 ^ (52 - k) = 2 ^ 53 := by
      rw [← pow_add]
      congr 1
      omega
    rw [← hp2]
    exact Nat.mul_lt_mul_of_pos_right h2 (Nat.two_pow_pos _)
  generalize hX : m * 2 ^ (52 - k) = X at hx1 hx2
  generalize hF : Float64.mk (S * 2 ^ 63 + (873 + k) * 2 ^ 52 + X) = F
  have f1 : F.sign = S := by
    subst hF
    simp only [Float64.sign]
    norm_num at hx1 hx2 ⊢
    omega
  have f2 : F.expField = 874 + k := by
    subst hF
    simp only [Float64.expField]
    norm_num at hx1 hx2 ⊢
    omega
  have f3 : F.frac = X - 2 ^ 52 := by
    subst hF
    simp only [Float64.frac]
    norm_num at hx1 hx2 ⊢
    omega
  have hmant : F.mant = m * 2 ^ (52 - k) := by
    simp only [Float64.mant, f2, f3]
    rw [if_neg (by omega), hX]
    omega
  have hexp : F.exp2 = (k : Int) - 201 := by
    simp only [Float64.exp2, f2]
    rw [if_neg (by omega)]
    push_cast
    ring
  have htop : topBit 64 (m * 2 ^ (52 - k)) = 52 := by
    rw [hX]
    exact topBit_eq 64 52 _ (by decide) hx1 hx2
  have a1 : F.expField ≠ 2047 := by rw [f2]; omega
  have a2 : F.mant ≠ 0 := by
    rw [hmant, hX]
    have : 0 < 2 ^ 52 := Nat.two_pow_pos _
    omega
  have a3 : ¬ max ((topBit 64 F.mant : Int) + F.exp2 - 23) (-149) ≤ F.exp2 := by
    rw [hmant, hexp, htop]; omega
  have a4 : (max ((topBit 64 F.mant : Int) + F.exp2 - 23) (-149) - F.exp2).toNat
      = 52 - k := by
    rw [hmant, hexp, htop]; omega
  have a5 : (max ((topBit 64 F.mant : Int) + F.exp2 + 126) 0).toNat = 0 := by
    rw [hmant, hexp, htop]; omega
  rw [toFloat32_finite F (52 - k) 0 a1 a2 a3 a4 a5, hmant, roundShift_exact, f1]
  have hlt : ¬ (0 * 2 ^ 23 + m ≥ 255 * 2 ^ 23) := by
    norm_num at hm23 ⊢
    omega
  rw [if_neg hlt]
  refine congrArg Float32.mk ?_
  omega

theorem topBit_spec : ∀ (fuel n : Nat), 0 < n → n < 2 ^ fuel →
    2 ^ topBit fuel n ≤ n ∧ n < 2 ^ (topBit fuel n + 1) ∧ topBit fuel n < fuel := by
  intro fuel
  induction fuel with
  | zero => intro n h0 h1; simp at h1; omega
  | succ fuel ih =>
    intro n h0 h1
    unfold topBit
    by_cases h2 : 2 ≤ n
    · rw [if_pos h2]
      have e1 : 2 ^ (fuel + 1) = 2 * 2 ^ fuel := by ring
      obtain ⟨i1, i2, i3⟩ := ih (n / 2) (by omega) (by omega)
      have e2 : 2 ^ (topBit fuel (n / 2) + 1) = 2 * 2 ^ topBit fuel (n / 2) := by ring
      have e3 : 2 ^ (topBit fuel (n / 2) + 1 + 1) = 2 * (2 * 2 ^ topBit fuel (n / 2)) := by
        ring
      refine ⟨by omega, by omega, by omega⟩
    · rw [if_neg h2]
      refine ⟨by simp; omega, by simp; omega, by omega⟩

/-- Widening a `float32` to `float64` and narrowing it back gives the `float32` again;
a NaN comes back as a NaN. -/
theorem Float32.roundTrip (x : Float32) (hx : x.bits < 2 ^ 32) :
    (x.isNaN = false ∧ x.toFloat64.toFloat32 = x)
      ∨ (x.isNaN = true ∧ x.toFloat64.toFloat32.isNaN = true) := by
  obtain ⟨b⟩ := x
  simp only at hx
  obtain ⟨S, e, m, hS, he, hm, rfl⟩ :
      ∃ S e m, S ≤ 1 ∧ e ≤ 255 ∧ m < 2 ^ 23 ∧ b = S * 2 ^ 31 + e * 2 ^ 23 + m :=
    ⟨b / 2 ^ 31, b / 2 ^ 23 % 2 ^ 8, b % 2 ^ 23, by norm_num at hx ⊢; omega,
      by norm_num; omega, by norm_num; omega, by norm_num; omega⟩
  have g1 : (S * 2 ^ 31 + e * 2 ^ 23 + m) / 2 ^ 31 % 2 = S := by norm_num at hm ⊢; omega
  have g2 : (S * 2 ^ 31 + e * 2 ^ 23 + m) / 2 ^ 23 % 2 ^ 8 = e := by norm_num at hm ⊢; omega
  have g3 : (S * 2 ^ 31 + e * 2 ^ 23 + m) % 2 ^ 23 = m := by norm_num at hm ⊢; omega
  simp only [Float32.toFloat64, Float32.isNaN, g1, g2, g3]
  by_cases he255 : e = 255
  · subst he255
    by_cases hm0 : m = 0
    · subst hm0
      left
      interval_cases S <;> decide
    · right
      refine ⟨by simp [hm0], ?_⟩
      simp only [if_true, if_neg hm0]
      have hY : 2 ^ 51 + m % 2 ^ 22 * 2 ^ 29 < 2 ^ 52 := by norm_num; omega
      obtain ⟨f1, f2, f3⟩ := Float64.fields S 2047 (2 ^ 51 + m % 2 ^ 22 * 2 ^ 29) hS
        (by omega) hY
      rw [← Nat.add_assoc] at f1 f2 f3
      have hfrac : ¬ (2 ^ 51 + m % 2 ^ 22 * 2 ^ 29 = 0) := by norm_num
      simp only [Float64.toFloat32, f1, f2, f3, if_true, if_neg hfrac, Float32.isNaN,
        decide_eq_true_eq]
      norm_num
      omega
  · by_cases he0 : e = 0
    · subst he0
      by_cases hm0 : m = 0
      · subst hm0
        left
        interval_cases S <;> decide
      · left
        refine ⟨by simp, ?_⟩
        simp only [if_neg he255, if_true, if_neg hm0]
        obtain ⟨t1, t2, t3⟩ := topBit_spec 23 m (by omega) hm
        have e1 : 0 * 2 ^ 23 = 0 := by norm_num
        rw [e1, Nat.add_zero]
        exact toFloat32_subnormal S (topBit 23 m) m hS (by omega) t1 t2
    · left
      refine ⟨by simp [he255], ?_⟩
      simp only [if_neg he255, if_neg he0]
      exact toFloat32_normal S e m hS (by omega) (by omega) hm

/-! ## Normalizing a value of primitive kind -/

theorem underlyingNumberType_int (arch : Arch) (h : Heap) (K t : GoType) (n : Int)
    (hK : K.IsBuiltinInt = true) (ht : t.Kind = K.Kind)
    (hlo : minValue arch K.Kind ≤ n) (hhi : n ≤ maxValue arch K.Kind) :
    underlyingNumberType arch h (.mk t (.int n))
      = .returned (.mk K (.int n)) (decide (K ≠ t)) := by
  cases K <;> simp [GoType.IsBuiltinInt] at hK <;>
    simp only [GoType.Kind] at ht hlo hhi <;>
    simp only [underlyingNumberType, Iface.Kind, ht, returnConverted, Iface.getInt,
      Iface.Type, Option.map] <;>
    cases arch <;>
    simp [minValue, maxValue, isSignedKind, Kind.bitSize, Arch.intSize] at hlo hhi <;>
    simp [wrapSigned, wrapUnsigned, Arch.intSize] <;>
    omega

theorem underlyingNumberType_other (arch : Arch) (h : Heap) (t : GoType) :
    (∀ f : Float32, t.Kind = .Float32 →
        underlyingNumberType arch h (.mk t (.float32 f))
          = .returned (.mk .float32 (.float32 f.toFloat64.toFloat32))
              (decide (GoType.float32 ≠ t)))
      ∧ (∀ f : Float64, t.Kind = .Float64 →
        underlyingNumberType arch h (.mk t (.float64 f))
          = .returned (.mk .float64 (.float64 f)) (decide (GoType.float64 ≠ t)))
      ∧ (∀ s : String, t.Kind = .String →
        underlyingNumberType arch h (.mk t (.string s))
          = .returned (.mk .string (.string s)) (decide (GoType.string ≠ t))) := by
  refine ⟨?_, ?_, ?_⟩ <;> intro x ht <;>
    simp [underlyingNumberType, Iface.Kind, ht, returnConverted, Iface.getFloat,
      Iface.getString, Iface.Type]

/-- C11: let `K` be one of the thirteen predeclared types `underlyingNumberType` handles
and `t` any type of the same kind (`K` itself or a named alias), with `x` a value of it.
`underlyingNumberType` returns a value of the bare type `K` with the same content as `x`
(the same integer, the same text, the same floating-point number; a `float32` NaN comes
back as a NaN), and `changed` is true exactly when `t` is not `K`. Likewise
`underlyingBoolType` returns the bare `bool` with the same truth value for a value of a
type `t2` of kind `bool`, and `changed` is true exactly when `t2` is not `bool`. -/
theorem underlying_primitive (arch : Arch) (h : Heap) (K t t2 : GoType) (x : Value)
    (b : Bool) (hK : K.IsNumberType = true) (ht : t.Kind = K.Kind)
    (hx : holdsKind arch K x = true) (ht2 : t2.Kind = .Bool) :
    (∃ y, underlyingNumberType arch h (.mk t x) = .returned (.mk K y) (decide (K ≠ t))
        ∧ sameContent x y = true)
      ∧ underlyingBoolType h (.mk t2 (.bool b))
        = .returned (.mk .bool (.bool b)) (decide (GoType.bool ≠ t2)) := by
  refine ⟨?_, by
    simp [underlyingBoolType, Iface.Kind, ht2, returnConverted, Iface.getBool, Iface.Type]⟩
  obtain ⟨o1, o2, o3⟩ := underlyingNumberType_other arch h t
  cases x with
  | int n =>
    have hh : K.IsBuiltinInt = true ∧ minValue arch K.Kind ≤ n ∧ n ≤ maxValue arch K.Kind := by
      have h3 : (K.IsBuiltinInt = true ∧ minValue arch K.Kind ≤ n)
          ∧ n ≤ maxValue arch K.Kind := by
        cases K <;> simpa [holdsKind] using hx
      exact ⟨h3.1.1, h3.1.2, h3.2⟩
    exact ⟨.int n, underlyingNumberType_int arch h K t n hh.1 ht hh.2.1 hh.2.2,
      by simp [sameContent]⟩
  | float32 f =>
    cases K <;> simp [holdsKind] at hx
    refine ⟨.float32 f.toFloat64.toFloat32, o1 f ht, ?_⟩
    rcases Float32.roundTrip f (by simpa using hx) with ⟨_, hr⟩ | ⟨hn1, hn2⟩
    · simp [sameContent, hr]
    · simp [sameContent, hn1, hn2]
  | float64 f =>
    cases K <;> simp [holdsKind] at hx
    exact ⟨.float64 f, o2 f ht, by simp [sameContent]⟩
  | string s =>
    cases K <;> simp [holdsKind] at hx
    exact ⟨.string s, o3 s ht, by simp [sameContent]⟩
  | _ => cases K <;> simp [holdsKind] at hx

/-- Witness for C11: a value 5 of a named type over `int32` gives the bare `int32` 5 with
`changed = true`; `true` of the bare type `bool` gives `changed = false`. -/
theorem underlying_primitive_witness :
    (∃ y, underlyingNumberType .bits64 ⟨[]⟩ (.mk (.named "main.MyInt32" .int32) (.int 5))
          = .returned (.mk .int32 y) true
        ∧ sameContent (.int 5) y = true)
      ∧ underlyingBoolType ⟨[]⟩ (.mk .bool (.bool true))
        = .returned (.mk .bool (.bool true)) false :=
  underlying_primitive .bits64 ⟨[]⟩ .int32 (.named "main.MyInt32" .int32) .bool (.int 5) true
    rfl rfl (by decide) rfl

/-! ## The normalizers that never panic -/

theorem elem_of_kind_slice {t : GoType} (hk : t.Kind = .Slice) : ∃ e, t.Elem = some e := by
  induction t with
  | named n u ih => exact ih hk
  | slice e => exact ⟨e, rfl⟩
  | _ => simp [GoType.Kind] at hk

theorem derefChanged_ne_panicked {h : Heap} {val : Iface}
    (hs : (elemInterface h val).isSome = true) : derefChanged h val ≠ .panicked := by
  unfold derefChanged
  cases he : elemInterface h val with
  | none => simp [he] at hs
  | some c => simp

/-- On a well-formed argument `underlyingNumberType`, `underlyingBoolType`,
`underlyingPtrType` and `underlyingSliceType` return without panicking, whatever its
kind; so does `underlyingTimeType` on every argument but the nil interface. -/
theorem normalizers_total (arch : Arch) (h : Heap) (t : GoType) (v : Value)
    (hw : (Iface.mk t v).wellFormed h = true) :
    underlyingNumberType arch h (.mk t v) ≠ .panicked
      ∧ underlyingBoolType h (.mk t v) ≠ .panicked
      ∧ underlyingPtrType h (.mk t v) ≠ .panicked
      ∧ underlyingSliceType h (.mk t v) ≠ .panicked
      ∧ underlyingTimeType h (.mk t v) ≠ .panicked
      ∧ underlyingNumberType arch h .nil = .returned .nil false
      ∧ underlyingBoolType h .nil = .returned .nil false
      ∧ underlyingPtrType h .nil = .returned .nil false
      ∧ underlyingSliceType h .nil = .returned .nil false
      ∧ underlyingPtrSliceType h .nil = .returned .nil false := by
  simp only [Iface.wellFormed, Bool.and_eq_true] at hw
  obtain ⟨hfit, hptr⟩ := hw
  refine ⟨?_, ?_, ?_, ?_, ?_, rfl, rfl, rfl, rfl, rfl⟩
  all_goals
    by_cases hk : t.Kind = .Ptr
    · cases v with
      | ptr o =>
        cases o with
        | none =>
          simp [underlyingNumberType, underlyingBoolType, underlyingPtrType,
            underlyingSliceType, underlyingTimeType, Iface.Kind, hk, Iface.IsNil]
        | some a =>
          have hd := derefChanged_ne_panicked hptr
          simpa [underlyingNumberType, underlyingBoolType, underlyingPtrType,
            underlyingSliceType, underlyingTimeType, Iface.Kind, hk, Iface.IsNil] using hd
      | _ => simp [kindFits, hk, isIntegerKind, isSignedKind, isUnsignedKind] at hfit
    · by_cases hs : t.Kind = .Slice
      · obtain ⟨e, he⟩ := elem_of_kind_slice hs
        simp only [underlyingNumberType, underlyingBoolType, underlyingPtrType,
          underlyingSliceType, underlyingTimeType, Iface.Kind, hs, he]
        first
          | (split_ifs <;> simp)
          | simp
      · generalize hkk : t.Kind = k at hfit hk hs
        cases k <;> cases v <;>
          simp [kindFits, isIntegerKind, isSignedKind, isUnsignedKind] at hfit hk hs <;>
          simp only [underlyingNumberType, underlyingBoolType, underlyingPtrType,
            underlyingSliceType, underlyingTimeType, Iface.Kind, hkk, returnConverted,
            Iface.getInt, Iface.getFloat, Iface.getString, Iface.getBool, Iface.Type,
            Option.map] <;>
          first
            | (split_ifs <;> simp)
            | simp

end Pgtype
